import Mathlib

/-!
Verification of the COMPLY.AI compliance-analysis core.

This file gives a shallow embedding of the core pipeline of the repository:
the keyword file filter and LLM-based file selector (`backend/utils/file_selector.py`),
the tolerant JSON extraction and sanitization of LLM replies
(`backend/utils/json_parser.py`), the per-rule analysis orchestration
(`backend/analyzer.py`, `analyze_rule` / `call_llm_for_rule`), and the result
aggregator (`backend/analyzer.py`, `aggregate_results`).

Python dynamic values are modelled by `PyVal`; Python exceptions by `PyErr`
together with `Except`.  External collaborators (the repository file source and
the completion provider) are modelled as record-of-functions parameters, and
the number of completion-provider invocations is threaded through explicitly so
that claims about "zero LLM calls" are statable.  Python float values are
modelled as exact rationals; no claim in this development depends on binary
floating-point rounding.  The prompt strings assembled for the provider are
reproduced structurally; their exact text only flows into the opaque provider.
-/

/-- A Python/JSON dynamic value: the value domain that `json.loads` produces
and that rule dictionaries and LLM replies live in.  `float` carries the exact
rational value of the Python float. -/
inductive PyVal where
  | str (s : String)
  | int (n : Int)
  | float (q : Rat)
  | bool (b : Bool)
  | noneV
  | list (xs : List PyVal)
  | dict (xs : List (String × PyVal))

/-- A Python dict with string keys, as an insertion-ordered association list. -/
abbrev PyDict := List (String × PyVal)

/-- A Python exception, tagged by class and carrying its rendered message
(what `str(e)` returns). -/
inductive PyErr where
  | valueError (msg : String)
  | typeError (msg : String)
  | attributeError (msg : String)
  | apiError (msg : String)
  deriving DecidableEq, Repr

/-- The rendered message of an exception, Python `str(e)`. -/
def pyErrMsg : PyErr → String
  | .valueError m => m
  | .typeError m => m
  | .attributeError m => m
  | .apiError m => m

/-- Effectful map over a list in `Except`, stopping at the first failure. -/
def mapE (f : α → Except PyErr β) : List α → Except PyErr (List β)
  | [] => .ok []
  | a :: t =>
    match f a with
    | .error e => .error e
    | .ok b =>
      match mapE f t with
      | .error e => .error e
      | .ok bs => .ok (b :: bs)

/-- Python dict assignment `d[k] = v`: update the first binding in place,
keeping its position, else append a new binding (insertion order). -/
def dictSet : PyDict → String → PyVal → PyDict
  | [], k, v => [(k, v)]
  | (k', v') :: t, k, v => if k' = k then (k, v) :: t else (k', v') :: dictSet t k v

/-- Python `d.get(key, default)` on a dict. -/
def dGetD (d : PyDict) (k : String) (dflt : PyVal) : PyVal :=
  match d.lookup k with
  | some v => v
  | none => dflt

/-- Python `x.get(key, default)` on an arbitrary value: only dicts have
`.get`; every other value raises `AttributeError`. -/
def pyGetD (v : PyVal) (k : String) (dflt : PyVal) : Except PyErr PyVal :=
  match v with
  | .dict d => .ok (dGetD d k dflt)
  | _ => .error (.attributeError "object has no attribute get")

/-- Python truthiness: `bool(x)` for the value domain of `PyVal`. -/
def pyTruthy : PyVal → Bool
  | .str s => !s.isEmpty
  | .int n => n ≠ 0
  | .float q => q ≠ 0
  | .bool b => b
  | .noneV => false
  | .list xs => !xs.isEmpty
  | .dict xs => !xs.isEmpty

/-- Python `str(x)` for the values that can appear in sanitized violations.
Container and float rendering is schematic; no claim depends on it. -/
def pyStr : PyVal → String
  | .str s => s
  | .int n => toString n
  | .float q => toString q.num ++ "e" ++ toString q.den
  | .bool b => if b then "True" else "False"
  | .noneV => "None"
  | .list _ => "[...]"
  | .dict _ => "(dict)"

/-- Truncation toward zero, the conversion `int(f)` applies to a float. -/
def ratTrunc (q : Rat) : Int := if 0 ≤ q then ⌊q⌋ else ⌈q⌉

/-- Does the value satisfy Python `isinstance(x, (int, float))`?  `bool` is a
subclass of `int` in Python, so `True`/`False` count as numbers. -/
def isPyNumber : PyVal → Bool
  | .int _ => true
  | .float _ => true
  | .bool _ => true
  | _ => false

/-- Python `int(x)` restricted to numeric values (never fails there). -/
def pyNumToInt : PyVal → Int
  | .int n => n
  | .float q => ratTrunc q
  | .bool b => if b then 1 else 0
  | _ => 0

/-- Python whitespace for `str.strip()` and `int(str)` (ASCII part). -/
def isPySpace (c : Char) : Bool :=
  c = ' ' || c = '\t' || c = '\n' || c = '\r' || c = '\x0b' || c = '\x0c'

/-- Integer-literal parsing used by Python `int(s)`: optional surrounding
whitespace, optional sign, at least one decimal digit. -/
def pyParseInt (s : String) : Option Int :=
  let core := (s.data.dropWhile isPySpace).reverse.dropWhile isPySpace |>.reverse
  let (neg, ds) :=
    match core with
    | '-' :: t => (true, t)
    | '+' :: t => (false, t)
    | t => (false, t)
  if ds.isEmpty || !ds.all Char.isDigit then none
  else
    let n : Int := Int.ofNat (ds.foldl (fun a c => a * 10 + (c.toNat - 48)) 0)
    some (if neg then -n else n)

/-- Python `int(x)` on an arbitrary value: exact for ints/bools, truncation
for floats, literal parsing for strings (raising `ValueError` on a
non-integer literal), `TypeError` otherwise. -/
def pyIntCast : PyVal → Except PyErr Int
  | .int n => .ok n
  | .bool b => .ok (if b then 1 else 0)
  | .float q => .ok (ratTrunc q)
  | .str s =>
    match pyParseInt s with
    | some n => .ok n
    | none => .error (.valueError "invalid literal for int with base 10")
  | _ => .error (.typeError "int argument must be a string or a number")

/-- Python banker's rounding `round(q)` to an integer: round half to even. -/
def pyRound (q : Rat) : Int :=
  if Int.fract q < 1 / 2 then ⌊q⌋
  else if 1 / 2 < Int.fract q then ⌊q⌋ + 1
  else if 2 ∣ ⌊q⌋ then ⌊q⌋ else ⌊q⌋ + 1

/-- ASCII lowercasing, Python `str.lower()` on the identifiers and paths the
pipeline handles. -/
def pyLower (s : String) : String := ⟨s.data.map Char.toLower⟩

/-- Is `pat` a contiguous substring of `xs`?  Python `pat in s`. -/
def infixOf : List Char → List Char → Bool
  | pat, [] => pat.isEmpty
  | pat, x :: t => pat.isPrefixOf (x :: t) || infixOf pat t

/-- Python substring test `pat in s` on strings. -/
def strContains (s pat : String) : Bool := infixOf pat.data s.data

/-- Python `s.strip()` on a character list. -/
def pyStrip (xs : List Char) : List Char :=
  ((xs.dropWhile isPySpace).reverse.dropWhile isPySpace).reverse

/-- Index of the first occurrence of `sep` as a substring of `xs`. -/
def findSub (xs sep : List Char) : Option Nat :=
  match xs with
  | [] => if sep.isEmpty then some 0 else none
  | _ :: t =>
    if sep.isPrefixOf xs then some 0
    else (findSub t sep).map (· + 1)

/-- Everything after the first occurrence of `sep` in `xs`
(`xs.split(sep)[1]` up to the following occurrence, see `beforeFirstSub`). -/
def afterFirstSub (xs sep : List Char) : List Char :=
  match findSub xs sep with
  | some i => xs.drop (i + sep.length)
  | none => xs

/-- The prefix of `xs` before the first occurrence of `sep`
(`xs.split(sep)[0]`), or all of `xs` when `sep` does not occur. -/
def beforeFirstSub (xs sep : List Char) : List Char :=
  match findSub xs sep with
  | some i => xs.take i
  | none => xs

/-- The opening brace character, written numerically. -/
def lbrace : Char := Char.ofNat 123

/-- The closing brace character, written numerically. -/
def rbrace : Char := Char.ofNat 125

/-- The markdown fence delimiter. -/
def fenceMark : List Char := "```".data

/-- The json-tagged markdown fence opener. -/
def fenceJsonMark : List Char := "```json".data

/-- The fence-stripping step shared by all three extraction functions
(`json_parser.py` lines 50-53, 147-150, `file_selector.py` lines 156-159):
if a json-tagged fence occurs, keep the stripped text between the end of the
first occurrence and the next fence; else if any fence occurs, keep the
stripped text between the first and second fences; else keep the input.
Because every occurrence of the json-tagged opener also contains the plain
fence delimiter, taking the text up to the first plain fence after the opener
reproduces the `split` pipeline of the source exactly. -/
def stripFences (xs : List Char) : List Char :=
  if infixOf fenceJsonMark xs then
    pyStrip (beforeFirstSub (afterFirstSub xs fenceJsonMark) fenceMark)
  else if infixOf fenceMark xs then
    pyStrip (beforeFirstSub (afterFirstSub xs fenceMark) fenceMark)
  else xs

/-- Index of the first occurrence of character `c`. -/
def firstIdxOf (c : Char) (xs : List Char) : Option Nat :=
  match xs with
  | [] => none
  | x :: t => if x = c then some 0 else (firstIdxOf c t).map (· + 1)

/-- Index of the last occurrence of character `c`. -/
def lastIdxOf (c : Char) (xs : List Char) : Option Nat :=
  match (firstIdxOf c xs.reverse) with
  | some j => some (xs.length - 1 - j)
  | none => none

/-- The match of the greedy regular expression for an object span (an opening
brace, any characters, a closing brace, with the dot matching newlines):
from the first opening brace to the last closing brace, provided the latter
comes later.  This reproduces `re.search` with a greedy span. -/
def greedyBraceSpan (xs : List Char) : Option (List Char) :=
  match firstIdxOf lbrace xs, lastIdxOf rbrace xs with
  | some i, some j => if i < j then some ((xs.take (j + 1)).drop i) else none
  | _, _ => none

/-- The match of the lazy regular expression for an array span (an opening
bracket, a shortest run of characters, a closing bracket): from the first
opening bracket to the first closing bracket after it.  This reproduces
`re.search` with a non-greedy span. -/
def lazyBracketSpan (xs : List Char) : Option (List Char) :=
  match firstIdxOf '[' xs with
  | none => none
  | some i =>
    match firstIdxOf ']' (xs.drop (i + 1)) with
    | none => none
    | some k => some ((xs.drop i).take (k + 2))

/-! ### A JSON reader mirroring `json.loads` (strict mode)

Structural parse of the JSON value grammar: `null`, `true`, `false`, numbers,
strings with escapes, arrays, objects, with JSON whitespace between tokens and
nothing but whitespace after the value.  A failure models
`json.JSONDecodeError`.  Duplicate object keys keep the first position and the
last value, as Python dict construction does.  Number literals with a fraction
or exponent become `PyVal.float` with the exact decimal value. -/

/-- JSON token whitespace. -/
def isJsonWs (c : Char) : Bool := c = ' ' || c = '\t' || c = '\n' || c = '\r'

/-- Drop leading JSON whitespace. -/
def skipWs : List Char → List Char
  | [] => []
  | c :: t => if isJsonWs c then skipWs t else c :: t

/-- Hex digit value. -/
def hexVal (c : Char) : Option Nat :=
  if c.isDigit then some (c.toNat - 48)
  else if 'a' ≤ c && c ≤ 'f' then some (c.toNat - 87)
  else if 'A' ≤ c && c ≤ 'F' then some (c.toNat - 55)
  else none

/-- JSON string body parser (after the opening quote), with escapes. -/
def parseJStr : List Char → List Char → Option (String × List Char)
  | acc, '"' :: t => some (⟨acc.reverse⟩, t)
  | acc, '\\' :: '"' :: t => parseJStr ('"' :: acc) t
  | acc, '\\' :: '\\' :: t => parseJStr ('\\' :: acc) t
  | acc, '\\' :: '/' :: t => parseJStr ('/' :: acc) t
  | acc, '\\' :: 'n' :: t => parseJStr ('\n' :: acc) t
  | acc, '\\' :: 't' :: t => parseJStr ('\t' :: acc) t
  | acc, '\\' :: 'r' :: t => parseJStr ('\r' :: acc) t
  | acc, '\\' :: 'b' :: t => parseJStr ('\x08' :: acc) t
  | acc, '\\' :: 'f' :: t => parseJStr ('\x0c' :: acc) t
  | acc, '\\' :: 'u' :: h1 :: h2 :: h3 :: h4 :: t =>
    match hexVal h1, hexVal h2, hexVal h3, hexVal h4 with
    | some a, some b, some c, some d =>
      parseJStr (Char.ofNat (((a * 16 + b) * 16 + c) * 16 + d) :: acc) t
    | _, _, _, _ => none
  | _, '\\' :: _ => none
  | acc, c :: t => if c.toNat < 32 then none else parseJStr (c :: acc) t
  | _, [] => none

/-- Longest prefix of decimal digits. -/
def spanDigits : List Char → (List Char × List Char)
  | [] => ([], [])
  | c :: t =>
    if c.isDigit then
      let r := spanDigits t
      (c :: r.1, r.2)
    else ([], c :: t)

/-- Numeric value of a digit run. -/
def digitsToNat (ds : List Char) : Nat :=
  ds.foldl (fun a c => a * 10 + (c.toNat - 48)) 0

/-- Ten to an integer power, as an exact rational. -/
def ratPow10 (k : Int) : Rat :=
  if 0 ≤ k then ((10 ^ k.toNat : Int) : Rat)
  else 1 / ((10 ^ (-k).toNat : Int) : Rat)

/-- Exponent part of a JSON number after the marker: optional sign, at least
one digit; returns success, the exponent, and the remaining input. -/
def parseExp (r : List Char) : (Bool × Int × List Char) :=
  let (eneg, r1) :=
    match r with
    | '-' :: t => (true, t)
    | '+' :: t => (false, t)
    | t => (false, t)
  match spanDigits r1 with
  | ([], _) => (false, 0, r)
  | (es, r2) =>
    let e : Int := Int.ofNat (digitsToNat es)
    (true, if eneg then -e else e, r2)

/-- JSON number parser: optional minus, integer part without leading zeros,
optional fraction, optional exponent.  Plain integers become `PyVal.int`;
a fraction or exponent yields `PyVal.float` with the exact decimal value. -/
def parseNum (xs : List Char) : Option (PyVal × List Char) :=
  let (neg, ys) :=
    match xs with
    | '-' :: t => (true, t)
    | t => (false, t)
  match spanDigits ys with
  | ([], _) => none
  | (ds, rest) =>
    if ds.length > 1 && ds.headD 'x' = '0' then none
    else
      let (fds, rest2) :=
        match rest with
        | '.' :: r =>
          match spanDigits r with
          | ([], _) => ([], rest)
          | (fs, r2) => (fs, r2)
        | _ => ([], rest)
      let hasFrac := !fds.isEmpty
      let (expOk, expVal, rest3) :=
        match rest2 with
        | 'e' :: r => parseExp r
        | 'E' :: r => parseExp r
        | _ => (false, 0, rest2)
      let rest' := if expOk then rest3 else rest2
      if !hasFrac && !expOk && (match rest2 with | '.' :: _ => true | _ => false) then none
      else
        let mant : Int := Int.ofNat (digitsToNat (ds ++ fds))
        let mant := if neg then -mant else mant
        if hasFrac || expOk then
          some (PyVal.float ((mant : Rat) * ratPow10 (expVal - fds.length)), rest')
        else
          some (PyVal.int mant, rest')

mutual
/-- JSON value parser with fuel; every recursive call decreases the fuel. -/
def parseJ : Nat → List Char → Option (PyVal × List Char)
  | 0, _ => none
  | Nat.succ fuel, xs =>
    match skipWs xs with
    | '"' :: t => (parseJStr [] t).map (fun p => (PyVal.str p.1, p.2))
    | 't' :: 'r' :: 'u' :: 'e' :: t => some (PyVal.bool true, t)
    | 'f' :: 'a' :: 'l' :: 's' :: 'e' :: t => some (PyVal.bool false, t)
    | 'n' :: 'u' :: 'l' :: 'l' :: t => some (PyVal.noneV, t)
    | c :: t =>
      if c = lbrace then parseObjBody fuel t []
      else if c = '[' then parseArrBody fuel t []
      else if c.isDigit || c = '-' then parseNum (c :: t)
      else none
    | [] => none

/-- JSON object members parser (after the opening brace); accumulates the
pairs in reverse and installs them with Python dict-update semantics. -/
def parseObjBody : Nat → List Char → List (String × PyVal) → Option (PyVal × List Char)
  | 0, _, _ => none
  | Nat.succ fuel, xs, acc =>
    match skipWs xs with
    | '"' :: t =>
      match parseJStr [] t with
      | none => none
      | some (k, rest) =>
        match skipWs rest with
        | ':' :: r2 =>
          match parseJ fuel r2 with
          | none => none
          | some (v, r3) =>
            match skipWs r3 with
            | ',' :: r4 => parseObjBody fuel r4 ((k, v) :: acc)
            | c :: r4 =>
              if c = rbrace then
                some (PyVal.dict (((k, v) :: acc).reverse.foldl
                  (fun d p => dictSet d p.1 p.2) []), r4)
              else none
            | _ => none
        | _ => none
    | c :: t => if c = rbrace && acc.isEmpty then some (PyVal.dict [], t) else none
    | _ => none

/-- JSON array elements parser (after the opening bracket). -/
def parseArrBody : Nat → List Char → List PyVal → Option (PyVal × List Char)
  | 0, _, _ => none
  | Nat.succ fuel, xs, acc =>
    match skipWs xs with
    | c :: t =>
      if c = ']' && acc.isEmpty then some (PyVal.list [], t)
      else
        match parseJ fuel (c :: t) with
        | none => none
        | some (v, r) =>
          match skipWs r with
          | ',' :: r2 => parseArrBody fuel r2 (v :: acc)
          | d :: r2 => if d = ']' then some (PyVal.list ((v :: acc).reverse), r2) else none
          | _ => none
    | [] => none
end

/-- `json.loads` on a character list: parse one JSON value and require only
whitespace after it; `none` models `json.JSONDecodeError`. -/
def jsonLoadsChars (xs : List Char) : Option PyVal :=
  match parseJ (xs.length + 8) xs with
  | some (v, rest) => if (skipWs rest).isEmpty then some v else none
  | none => none

/-! ### `json_parser.py`: sanitization and object-mode extraction -/

/-- A sanitized violation entry, the dict rebuilt by
`validate_and_sanitize_response` (`json_parser.py` lines 108-125). -/
structure SViolation where
  file : String
  line : Option Int
  severity : String
  issue : String
  recommendation : String
  article : Option String

/-- The sanitized analysis result: the dict with keys `passed`, `violations`,
`score` that `validate_and_sanitize_response` returns.  `passed` keeps
whatever value the parsed reply carried (defaulting to `False`); `score` is
an integer after coercion and clamping. -/
structure SanResult where
  passed : PyVal
  violations : List SViolation
  score : Int

/-- Rebuild one violation dict with defaults (`json_parser.py` lines 108-125).
The `line` entry is `int(value)` when the raw value is truthy — which raises
for a truthy value that is not castable — and `null` otherwise. -/
def sanitize_violation (v : PyDict) : Except PyErr SViolation := do
  let lineRaw := dGetD v "line" .noneV
  let line ← if pyTruthy lineRaw then
      (pyIntCast (dGetD v "line" (.int 0))).map some
    else .ok none
  .ok { file := pyStr (dGetD v "file" (.str "unknown"))
        line := line
        severity := pyStr (dGetD v "severity" (.str "medium"))
        issue := pyStr (dGetD v "issue" (.str "No description"))
        recommendation := pyStr (dGetD v "recommendation" (.str "No recommendation"))
        article := if pyTruthy (dGetD v "article" .noneV) then
            some (pyStr (dGetD v "article" (.str ""))) else none }

/-- Sanitize a violations list: entries that are dicts are rebuilt, all other
entries are silently dropped (`json_parser.py` lines 105-125). -/
def sanitize_violations : List PyVal → Except PyErr (List SViolation)
  | [] => .ok []
  | v :: t =>
    match v with
    | .dict d => do
      let sv ← sanitize_violation d
      let rest ← sanitize_violations t
      .ok (sv :: rest)
    | _ => sanitize_violations t

/-- `validate_and_sanitize_response` (`json_parser.py` lines 77-129): default
the `passed`, `violations` and `score` keys, coerce and clamp the score into
0..100, replace a non-list violations value by the empty list, and sanitize
each violation entry.  Called on a non-dict value, the attribute access
raises. -/
def validate_and_sanitize_response (data : PyVal) : Except PyErr SanResult :=
  match data with
  | .dict d => do
    let scoreRaw := dGetD d "score" (.int 0)
    let score : Int :=
      if !isPyNumber scoreRaw then 0
      else max 0 (min 100 (pyNumToInt scoreRaw))
    let violRaw := dGetD d "violations" (.list [])
    let violList :=
      match violRaw with
      | .list l => l
      | _ => []
    let sanitized ← sanitize_violations violList
    .ok { passed := dGetD d "passed" (.bool false)
          violations := sanitized
          score := score }
  | _ => .error (.attributeError "object has no attribute get")

/-- `parse_json_response` (`json_parser.py` lines 12-74): strip, remove
markdown fences, try a direct `json.loads` of the fence-stripped text, then
try the greedy brace span of that same (fence-stripped) text, and raise
`ValueError` when both fail.  Only decode errors trigger the fallback;
errors raised by sanitization propagate. -/
def parse_json_response (response : String) : Except PyErr SanResult :=
  let cleaned := stripFences (pyStrip response.data)
  match jsonLoadsChars cleaned with
  | some v => validate_and_sanitize_response v
  | none =>
    match greedyBraceSpan cleaned with
    | some span =>
      match jsonLoadsChars span with
      | some v => validate_and_sanitize_response v
      | none => .error (.valueError "No valid JSON found in LLM response")
    | none => .error (.valueError "No valid JSON found in LLM response")

/-- Python `f in available_files` for a parsed JSON element against a list of
path strings: equality with a string holds only for an equal string. -/
def pyMemStrList (v : PyVal) (files : List String) : Bool :=
  match v with
  | .str s => files.contains s
  | _ => false

/-- The list-comprehension filter keeping parsed entries that literally occur
in the allow-list, in reply order. -/
def keepKnownFiles (l : List PyVal) (files : List String) : List String :=
  l.filterMap (fun v =>
    match v with
    | .str s => if files.contains s then some s else none
    | _ => none)

/-- `parse_llm_file_selection` (`json_parser.py` lines 132-172): fence-strip,
try a direct parse — returning the filtered list only when it yields a JSON
array — then try the lazy bracket span of the same fence-stripped text, and
return the empty list when everything fails.  The span is attempted both when
the direct parse raised and when it parsed to a non-array. -/
def parse_llm_file_selection (response : String) (available_files : List String) :
    List String :=
  let cleaned := stripFences (pyStrip response.data)
  match jsonLoadsChars cleaned with
  | some (.list l) => keepKnownFiles l available_files
  | _ =>
    match lazyBracketSpan cleaned with
    | some span =>
      match jsonLoadsChars span with
      | some (.list l) => keepKnownFiles l available_files
      | _ => []
    | none => []

/-! ### `file_selector.py`: keyword filtering and LLM file selection -/

/-- `filter_by_keywords` (`file_selector.py` lines 12-40) on well-typed
arguments: with no keywords return the input unchanged, else keep, in order,
the paths whose lowercase form contains some lowercase keyword. -/
def filter_by_keywords (files : List String) (keywords : List String) : List String :=
  if keywords.isEmpty then files
  else
    let keywords_lower := keywords.map pyLower
    files.filter (fun filepath =>
      keywords_lower.any (fun keyword => strContains (pyLower filepath) keyword))

/-- Iterating a dynamic keywords value as Python `for k in keywords` does for
the types that iterate to strings: a list must contain strings (anything else
raises when `.lower()` is called), a string iterates to its characters, a
dict iterates to its keys; numbers and `None` are not iterable. -/
def pyStrSeq (v : PyVal) : Except PyErr (List String)
  := match v with
  | .list l =>
    mapE (fun k =>
      match k with
      | .str s => Except.ok s
      | _ => .error (.attributeError "object has no attribute lower")) l
  | .str s => .ok (s.data.map (fun c => String.mk [c]))
  | .dict d => .ok (d.map Prod.fst)
  | _ => .error (.typeError "object is not iterable")

/-- `filter_by_keywords` on a dynamic keywords value: a falsy value returns
the input unchanged; otherwise the keywords are iterated, lowercased and
matched as substrings. -/
def py_filter_by_keywords (files : List String) (keywords : PyVal) :
    Except PyErr (List String) :=
  if !pyTruthy keywords then .ok files
  else do
    let ks ← pyStrSeq keywords
    .ok (files.filter (fun filepath =>
      (ks.map pyLower).any (fun keyword => strContains (pyLower filepath) keyword)))

/-- Python slicing `xs[:n]`: lists and strings are sliceable (a string slices
to characters, relevant because `.get` on the resulting one-character strings
then raises); other values raise `TypeError`. -/
def pySlice (v : PyVal) (n : Nat) : Except PyErr (List PyVal) :=
  match v with
  | .list l => .ok (l.take n)
  | .str s => .ok ((s.data.map (fun c => PyVal.str (String.mk [c]))).take n)
  | _ => .error (.typeError "object is not subscriptable")

/-- Schematic `json.dumps` used only to assemble prompt text; the provider is
opaque, so the exact rendering is immaterial to every claim. -/
def pyDumps : Nat → PyVal → String
  | _, .str s => "\"" ++ s ++ "\""
  | _, .int n => toString n
  | _, .float q => toString q.num ++ "e" ++ toString q.den
  | _, .bool b => if b then "true" else "false"
  | _, .noneV => "null"
  | 0, .list _ => "[...]"
  | 0, .dict _ => "..."
  | Nat.succ fuel, .list xs => "[" ++ String.intercalate ", " (xs.map (pyDumps fuel)) ++ "]"
  | Nat.succ fuel, .dict xs =>
    lbrace.toString ++
      String.intercalate ", " (xs.map (fun p => "\"" ++ p.1 ++ "\": " ++ pyDumps fuel p.2)) ++
      rbrace.toString

/-- The completion provider, `FeatherlessClient.generate_completion`
(`llm_client.py` lines 32-72): a prompt yields generated text or raises a
transport error.  The token-budget and temperature arguments carry no
information for the analysis semantics and are omitted. -/
structure FeatherlessClient where
  generate_completion : String → Except PyErr String

/-- The selection prompt of `select_best_files` (`file_selector.py` lines
85-110), assembled from the candidate list and rule metadata. -/
def selection_prompt_text (filtered_files : List String) (rule_title rule_description : PyVal)
    (must_find : PyVal) (pattern_descriptions : List PyVal) (max_files : Nat) : String :=
  "You are a file selection assistant for GDPR compliance analysis.\n" ++
  "Given a list of files and what to check, select the most relevant files.\n" ++
  "Return ONLY a JSON array of filenames, nothing else." ++
  "\n\nFILES:\n" ++ pyDumps 16 (.list (filtered_files.map PyVal.str)) ++
  "\n\nRULE: " ++ pyStr rule_title ++ "\n" ++ pyStr rule_description ++
  "\n\nMUST FIND: " ++ pyDumps 16 must_find ++
  "\n\nPATTERNS TO DETECT: " ++ pyDumps 16 (.list pattern_descriptions) ++
  "\n\nSelect the " ++ toString max_files ++ " most relevant files for this analysis.\n" ++
  "Return ONLY a JSON array like: [\"file1.js\", \"file2.py\", \"file3.js\"]\n"

/-- Construction of the selection prompt (`file_selector.py` lines 85-110).
The rule-field accesses happen before the protected region of
`select_best_files`, so a failure here propagates to the caller. -/
def build_selection_prompt (filtered_files : List String) (rule : PyDict)
    (max_files : Nat) : Except PyErr String := do
  let rule_title := dGetD rule "title" (.str "")
  let rule_description := dGetD rule "description" (.str "")
  let code_checks := dGetD rule "code_checks" (.dict [])
  let must_find ← pyGetD code_checks "must_find" (.list [])
  let red_patterns ← pyGetD code_checks "red_patterns" (.list [])
  let rp3 ← pySlice red_patterns 3
  let pattern_descriptions ← mapE (fun p => pyGetD p "pattern" (.str "")) rp3
  .ok (selection_prompt_text filtered_files rule_title rule_description
        must_find pattern_descriptions max_files)

/-- `parse_file_selection_response` (`file_selector.py` lines 132-185):
fence-strip, try a direct parse — returning the filtered list when it yields
a JSON array and the empty list when it yields any other JSON value — and
try the lazy bracket span of the same fence-stripped text only when the
direct parse raised a decode error. -/
def parse_file_selection_response (response : String) (filtered_files : List String) :
    List String :=
  let cleaned := stripFences (pyStrip response.data)
  match jsonLoadsChars cleaned with
  | some (.list l) => keepKnownFiles l filtered_files
  | some _ => []
  | none =>
    match lazyBracketSpan cleaned with
    | some span =>
      match jsonLoadsChars span with
      | some (.list l) => keepKnownFiles l filtered_files
      | _ => []
    | none => []

/-- `select_best_files` (`file_selector.py` lines 43-129), with the number of
completion-provider invocations returned alongside the selection.  A list no
longer than the cap is returned unchanged with no provider call; otherwise
the prompt is built (failures here propagate), and a provider failure falls
back to the first `max_files` candidates. -/
def select_best_files (filtered_files : List String) (rule : PyDict) (max_files : Nat)
    (llm_client : FeatherlessClient) : Except PyErr (List String × Nat) :=
  if filtered_files.length ≤ max_files then .ok (filtered_files, 0)
  else if filtered_files.isEmpty then .ok ([], 0)
  else
    match build_selection_prompt filtered_files rule max_files with
    | .error e => .error e
    | .ok prompt =>
      match llm_client.generate_completion prompt with
      | .error _ => .ok (filtered_files.take max_files, 1)
      | .ok response =>
        .ok ((parse_file_selection_response response filtered_files).take max_files, 1)

/-! ### `analyzer.py`: per-rule orchestration -/

/-- The repository accessor produced by `repo_handler.get_all_files` and
`read_file`: the partitioned file listing, and a per-path reader that may
fail (missing file, decode failure).  Repository acquisition itself is an
external collaborator. -/
structure Repo where
  code_files : List String
  doc_files : List String
  read_file : String → Except PyErr String

/-- The result dict of `analyze_rule`: key presence of the optional `note`
and `error` entries is modelled with `Option`. -/
structure RuleResult where
  rule_id : PyVal
  passed : PyVal
  violations : List SViolation
  score : Int
  files_analyzed : List String
  note : Option String
  error : Option String

/-- Insertion-ordered update for the file-contents dict. -/
def contentSet : List (String × String) → String → String → List (String × String)
  | [], k, v => [(k, v)]
  | (k', v') :: t, k, v => if k' = k then (k, v) :: t else (k', v') :: contentSet t k v

/-- The file-reading loop of `analyze_rule` (`analyzer.py` lines 94-100): a
read failure for an individual file is skipped, and the surviving contents
form an insertion-ordered dict. -/
def read_selected (repo : Repo) (files : List String) : List (String × String) :=
  files.foldl (fun fc fp =>
    match repo.read_file fp with
    | .ok content => contentSet fc fp content
    | .error _ => fc) []

/-- `format_files` (`analyzer.py` lines 210-241): each file rendered with a
header and footer, content capped at 200 lines with an explicit truncation
marker carrying the remaining-line count.  Line splitting is on newline. -/
def format_files (file_contents : List (String × String)) : String :=
  String.intercalate "\n" (file_contents.map (fun p =>
    let lines := p.2.splitOn "\n"
    let preview :=
      if lines.length > 200 then
        String.intercalate "\n" (lines.take 200) ++
          "\n... [truncated, " ++ toString (lines.length - 200) ++ " more lines]"
      else p.2
    "\n===== FILE: " ++ p.1 ++ " =====\n" ++ preview ++ "\n===== END OF " ++ p.1 ++ " =====\n"))

/-- The user section of the analysis prompt (`analyzer.py` lines 152-193). -/
def analysis_user_text (rule : PyDict) (files_text : String) (red_triples : List PyVal)
    (document_checks : PyVal) : String :=
  "TASK: Analyze the following files for GDPR compliance violations.\n\n" ++
  "RULE: " ++ pyStr (dGetD rule "title" (.str "Unknown")) ++ "\n" ++
  "ARTICLE: " ++ pyStr (dGetD rule "article" (.str "N/A")) ++ "\n\n" ++
  "FILES TO ANALYZE:\n" ++ files_text ++ "\n\n" ++
  "RED PATTERNS TO DETECT:\n" ++ pyDumps 16 (.list red_triples) ++ "\n\n" ++
  "DOCUMENT REQUIREMENTS:\n" ++
  (if pyTruthy document_checks then pyDumps 16 document_checks else "N/A") ++ "\n\n" ++
  "INSTRUCTIONS: return ONLY valid JSON with keys passed, violations, score; " ++
  "article: " ++ pyStr (dGetD rule "article" (.str "")) ++ "\n"

/-- Construction of the full analysis prompt of `call_llm_for_rule`
(`analyzer.py` lines 138-196): the rule's agent prompt (or description) as
instruction context, then the user section embedding the formatted file
contents, the first five red patterns and the document checks. -/
def build_analysis_prompt (rule : PyDict) (file_contents : List (String × String)) :
    Except PyErr String := do
  let system_prompt := pyStr (dGetD rule "agent_prompt"
    (dGetD rule "description" (.str "Analyze for GDPR compliance.")))
  let files_text := format_files file_contents
  let code_checks := dGetD rule "code_checks" (.dict [])
  let red_patterns ← pyGetD code_checks "red_patterns" (.list [])
  let document_checks := dGetD rule "document_checks" (.dict [])
  let rp5 ← pySlice red_patterns 5
  let red_triples ← mapE (fun p => do
    let pat ← pyGetD p "pattern" .noneV
    let sev ← pyGetD p "severity" .noneV
    let expl ← pyGetD p "explanation" .noneV
    pure (PyVal.dict [("pattern", pat), ("severity", sev), ("explanation", expl)])) rp5
  .ok (system_prompt ++ "\n\n" ++ analysis_user_text rule files_text red_triples document_checks)

/-- `call_llm_for_rule` (`analyzer.py` lines 124-207): build the prompt, call
the provider, and extract the object-shaped result from the reply; the second
component counts provider invocations.  Every failure is surfaced to the
caller (which catches it). -/
def call_llm_for_rule (rule : PyDict) (file_contents : List (String × String))
    (llm_client : FeatherlessClient) : Except PyErr SanResult × Nat :=
  match build_analysis_prompt rule file_contents with
  | .error e => (.error e, 0)
  | .ok full_prompt =>
    match llm_client.generate_completion full_prompt with
    | .error e => (.error e, 1)
    | .ok response => (parse_json_response response, 1)

/-- The code-file branch of `analyze_rule` (`analyzer.py` lines 56-72): when
the check type enables code handling and the rule's code checks are enabled,
filter the repository's code files by the rule's keywords and run the
LLM-backed selector over a nonempty filtered list.  The `code_checks` value
is a pure dictionary access written out at each use site. -/
def code_file_selection (rule : PyDict) (repo : Repo) (llm_client : FeatherlessClient) :
    Except PyErr (List String × Nat) :=
  if pyMemStrList (dGetD rule "check_type" (.str "both")) ["code", "both"] then
    match pyGetD (dGetD rule "code_checks" (.dict [])) "enabled" (.bool false) with
    | .error e => .error e
    | .ok enabled =>
      if pyTruthy enabled then
        match pyGetD (dGetD rule "code_checks" (.dict [])) "file_keywords" (.list []) with
        | .error e => .error e
        | .ok keywords =>
          match py_filter_by_keywords repo.code_files keywords with
          | .error e => .error e
          | .ok filtered_code =>
            if filtered_code.isEmpty then .ok ([], 0)
            else select_best_files filtered_code rule 3 llm_client
      else .ok ([], 0)
  else .ok ([], 0)

/-- The file-selection stage of `analyze_rule` (`analyzer.py` lines 56-80):
the code branch above, then every documentation file when the check type
enables document handling, concatenated.  The second component counts
provider invocations. -/
def rule_file_selection (rule : PyDict) (repo : Repo) (llm_client : FeatherlessClient) :
    Except PyErr (List String × Nat) :=
  match code_file_selection rule repo llm_client with
  | .error e => .error e
  | .ok codeSel =>
    let doc_files :=
      if pyMemStrList (dGetD rule "check_type" (.str "both")) ["document", "both"] then
        repo.doc_files
      else []
    .ok (codeSel.1 ++ doc_files, codeSel.2)

/-- The short-circuit result of `analyze_rule` when no file was selected
(`analyzer.py` lines 84-91). -/
def emptyFilesResult (rule : PyDict) : RuleResult :=
  { rule_id := dGetD rule "id" .noneV
    passed := .bool true
    violations := []
    score := 100
    files_analyzed := []
    note := some "No relevant files found to analyze"
    error := none }

/-- The result of `analyze_rule` on a successful completion and parse
(`analyzer.py` lines 104-110). -/
def llmSuccessResult (rule : PyDict) (san : SanResult)
    (file_contents : List (String × String)) : RuleResult :=
  { rule_id := dGetD rule "id" .noneV
    passed := san.passed
    violations := san.violations
    score := san.score
    files_analyzed := file_contents.map Prod.fst
    note := none
    error := none }

/-- The degraded result of `analyze_rule` when the protected region raised
(`analyzer.py` lines 112-121). -/
def llmErrorResult (rule : PyDict) (e : PyErr)
    (file_contents : List (String × String)) : RuleResult :=
  { rule_id := dGetD rule "id" .noneV
    passed := .noneV
    violations := []
    score := 0
    files_analyzed := file_contents.map Prod.fst
    note := none
    error := some (pyErrMsg e) }

/-- `analyze_rule` (`analyzer.py` lines 17-121), with the total number of
provider invocations returned alongside the result dict.  The optional
client argument and the construction of a fresh `FeatherlessClient` — which
raises `ValueError` when no API key is available (`llm_client.py` lines
15-24) — are modelled by `mk_client`.  The main completion call and response
parsing are protected: any failure there degrades into an error-tagged
result; failures before that region propagate. -/
def analyze_rule (rule : PyDict) (repo : Repo) (llm_client : Option FeatherlessClient)
    (mk_client : Except PyErr FeatherlessClient) : Except PyErr (RuleResult × Nat) :=
  match (match llm_client with
         | some c => Except.ok c
         | none => mk_client) with
  | .error e => .error e
  | .ok client =>
    match rule_file_selection rule repo client with
    | .error e => .error e
    | .ok sel =>
      if sel.1.isEmpty then .ok (emptyFilesResult rule, sel.2)
      else
        match call_llm_for_rule rule (read_selected repo sel.1) client with
        | (.ok result, k) =>
          .ok (llmSuccessResult rule result (read_selected repo sel.1), sel.2 + k)
        | (.error e, k) =>
          .ok (llmErrorResult rule e (read_selected repo sel.1), sel.2 + k)

/-! ### `analyzer.py`: aggregation across rules

`aggregate_results` mutates the violation dicts of its inputs in place
(`analyzer.py` line 271), so the violation dicts live in an explicit store of
mutable objects: a result record holds references (store indices) to its
violation dicts, and the aggregate returns both the output and the store
after the call. -/

/-- A rule-result record as consumed by `aggregate_results`: its id, its
score value (any dynamic value — errored analyses carry non-numbers), and
references to its violation dict objects. -/
structure RuleRec where
  rule_id : PyVal
  score : PyVal
  violations : List Nat

/-- The aggregate output: the category score, the violation dict references
in order (the very objects of the inputs), and the number of rules. -/
structure AggResult where
  score : Int
  violations : List Nat
  rules_checked : Nat

/-- The score filter of `aggregate_results` (`analyzer.py` lines 258-262):
keep values that are not `None` and are `isinstance (int, float)` — which
includes booleans — as exact rationals. -/
def scoreNum : PyVal → Option Rat
  | .int n => some (n : Rat)
  | .float q => some q
  | .bool b => some (if b then 1 else 0)
  | _ => none

/-- One stamping step `v["rule_id"] = rid` on the store. -/
def stampStep (st : List PyDict) (p : Nat × PyVal) : List PyDict :=
  st.set p.1 (dictSet (st.getD p.1 []) "rule_id" p.2)

/-- `aggregate_results` (`analyzer.py` lines 244-278): mean of the usable
scores (0 when none), rounded with Python `round`; every violation of every
result concatenated in input order, each stamped in place with its
originating rule id; and the record count. -/
def aggregate_results (results : List RuleRec) (store : List PyDict) :
    AggResult × List PyDict :=
  if results.isEmpty then ({ score := 0, violations := [], rules_checked := 0 }, store)
  else
    let valid_scores := results.filterMap (fun r => scoreNum r.score)
    let avg : Rat :=
      if valid_scores.isEmpty then 0 else valid_scores.sum / (valid_scores.length : Rat)
    let pairs := results.flatMap (fun r => r.violations.map (fun i => (i, r.rule_id)))
    ({ score := pyRound avg
       violations := pairs.map Prod.fst
       rules_checked := results.length },
     pairs.foldl stampStep store)

/-! ### Specification-side definitions for the extraction fallback (claim C5)

`extract_object_spec`, `extract_array_spec` and `extract_array_strict_spec`
state the extraction routines as an ordered pipeline of strategies over the
fence-stripped text, following the amended wording; the claim theorems relate
the source translations to them.  `parse_json_response_claimed` follows the
frozen claim's own wording — the fallback searching the full trimmed input —
and is used to exhibit the divergence. -/

/-- First successful strategy of an ordered pipeline. -/
def firstSome (l : List (Option α)) : Option α :=
  l.foldl (fun acc o =>
    match acc with
    | some v => some v
    | none => o) none

/-- Object-mode extraction as an ordered strategy pipeline over the
fence-stripped text: direct parse first, then the greedy brace span of the
same fence-stripped text; the chosen value is sanitized, and a failure of
both strategies raises. -/
def extract_object_spec (response : String) : Except PyErr SanResult :=
  let t := stripFences (pyStrip response.data)
  match firstSome [jsonLoadsChars t, (greedyBraceSpan t).bind jsonLoadsChars] with
  | some v => validate_and_sanitize_response v
  | none => .error (.valueError "No valid JSON found in LLM response")

/-- Array-mode extraction (`parse_llm_file_selection`) as a strategy
pipeline over the fence-stripped text: a strategy succeeds only when its
parse yields a JSON array; the lazy bracket span of the same fence-stripped
text is the fallback, and the empty list is returned when both fail. -/
def extract_array_spec (response : String) (available_files : List String) : List String :=
  let t := stripFences (pyStrip response.data)
  let direct :=
    match jsonLoadsChars t with
    | some (.list l) => some l
    | _ => none
  let fallback :=
    match (lazyBracketSpan t).bind jsonLoadsChars with
    | some (.list l) => some l
    | _ => none
  match firstSome [direct, fallback] with
  | some l => keepKnownFiles l available_files
  | none => []

/-- Array-mode extraction of the file selector
(`parse_file_selection_response`): as `extract_array_spec`, except that the
lazy-span fallback runs only when the direct parse raised a decode error —
a direct parse to a non-array value returns the empty list at once. -/
def extract_array_strict_spec (response : String) (filtered_files : List String) :
    List String :=
  let t := stripFences (pyStrip response.data)
  match jsonLoadsChars t with
  | some (.list l) => keepKnownFiles l filtered_files
  | some _ => []
  | none =>
    match (lazyBracketSpan t).bind jsonLoadsChars with
    | some (.list l) => keepKnownFiles l filtered_files
    | _ => []

/-- Object-mode extraction as the frozen claim words it: the fallback greedy
brace span is searched in the original cleaned (trimmed) text rather than in
the fence-stripped substring. -/
def parse_json_response_claimed (response : String) : Except PyErr SanResult :=
  let cleaned0 := pyStrip response.data
  let t := stripFences cleaned0
  match jsonLoadsChars t with
  | some v => validate_and_sanitize_response v
  | none =>
    match greedyBraceSpan cleaned0 with
    | some span =>
      match jsonLoadsChars span with
      | some v => validate_and_sanitize_response v
      | none => .error (.valueError "No valid JSON found in LLM response")
    | none => .error (.valueError "No valid JSON found in LLM response")

/-! ### Claim C7: keyword filtering -/

/-- C7: `filter_by_keywords F []` is the identity; the filtered list is a
subsequence of `F` in the original order; and, for a nonempty keyword list, a
path is kept exactly when its lowercase form contains the lowercase form of
at least one keyword as a substring (so matching is case-insensitive). -/
theorem filter_by_keywords_C7 (F K : List String) (p : String) :
    filter_by_keywords F [] = F ∧
    List.Sublist (filter_by_keywords F K) F ∧
    (K ≠ [] →
      (p ∈ filter_by_keywords F K ↔
        p ∈ F ∧ ∃ k ∈ K, strContains (pyLower p) (pyLower k) = true)) := by
  refine ⟨by simp [filter_by_keywords], ?_, ?_⟩
  · by_cases hK : K.isEmpty
    · simp [filter_by_keywords, hK]
    · simp only [filter_by_keywords, hK, if_false, Bool.false_eq_true]
      exact List.filter_sublist _
  · intro hK
    have hK' : K.isEmpty = false := by
      cases K with
      | nil => exact absurd rfl hK
      | cons a t => rfl
    simp only [filter_by_keywords, hK', Bool.false_eq_true, if_false, List.mem_filter,
      List.any_map, List.any_eq_true, Function.comp]

/-- Witness for C7 at concrete inputs: the uppercase keyword COOKIE matches
the lowercase path src/cookie.js. -/
theorem filter_by_keywords_C7_witness :
    (["COOKIE"] : List String) ≠ [] ∧
    ("src/cookie.js" ∈ filter_by_keywords ["src/cookie.js", "src/api.js"] ["COOKIE"] ↔
      "src/cookie.js" ∈ ["src/cookie.js", "src/api.js"] ∧
      ∃ k ∈ (["COOKIE"] : List String),
        strContains (pyLower "src/cookie.js") (pyLower k) = true) :=
  ⟨by decide,
    (filter_by_keywords_C7 ["src/cookie.js", "src/api.js"] ["COOKIE"] "src/cookie.js").2.2
      (by decide)⟩

/-! ### Claim C4: small candidate lists bypass the provider -/

/-- C4: when the candidate list is no longer than the cap (including the
empty list), `select_best_files` returns it unchanged and performs zero
completion-provider calls. -/
theorem select_best_files_small_C4 (filtered_files : List String) (rule : PyDict)
    (max_files : Nat) (llm_client : FeatherlessClient)
    (h : filtered_files.length ≤ max_files) :
    select_best_files filtered_files rule max_files llm_client = .ok (filtered_files, 0) := by
  unfold select_best_files
  rw [if_pos h]

/-- Witness for C4: three candidates with a cap of five are returned
unchanged with zero provider calls, the provider being one that would fail
if called. -/
theorem select_best_files_small_C4_witness :
    (["a.js", "b.py", "c.js"] : List String).length ≤ 5 ∧
    select_best_files ["a.js", "b.py", "c.js"] [] 5
        ⟨fun _ => .error (.apiError "Featherless API error: down")⟩ =
      .ok (["a.js", "b.py", "c.js"], 0) :=
  ⟨by decide,
    select_best_files_small_C4 ["a.js", "b.py", "c.js"] [] 5
      ⟨fun _ => .error (.apiError "Featherless API error: down")⟩ (by decide)⟩

/-! ### Claim C3: behavior of the selector on provider and extractor failure -/

/-- Counterexample to C3 as frozen: with six candidates, a cap of five and a
provider reply that cannot be validated as a JSON array, `select_best_files`
returns the empty list — not the first five candidates.  Only a provider
exception triggers the first-`max_files` fallback; an unparsable reply takes
the extractor's empty-result path. -/
theorem select_best_files_C3_cex :
    select_best_files ["c1", "c2", "c3", "c4", "c5", "c6"] [] 5 ⟨fun _ => .ok "garbage"⟩ =
      .ok ([], 1) ∧
    ([] : List String) ≠ (["c1", "c2", "c3", "c4", "c5", "c6"] : List String).take 5 :=
  ⟨rfl, by decide⟩

/-- C3 amended: with more candidates than the cap, a provider exception makes
`select_best_files` return exactly the first `max_files` candidates, while a
reply that does not validate to any known filename makes it return the empty
list; in neither case does the failure propagate to the caller. -/
theorem select_best_files_fallback_C3 (filtered_files : List String) (rule : PyDict)
    (max_files : Nat) (llm_client : FeatherlessClient) (prompt : String)
    (hbig : max_files < filtered_files.length)
    (hp : build_selection_prompt filtered_files rule max_files = .ok prompt) :
    (∀ e, llm_client.generate_completion prompt = .error e →
      select_best_files filtered_files rule max_files llm_client =
        .ok (filtered_files.take max_files, 1)) ∧
    (∀ response, llm_client.generate_completion prompt = .ok response →
      parse_file_selection_response response filtered_files = [] →
      select_best_files filtered_files rule max_files llm_client = .ok ([], 1)) := by
  have hne : filtered_files.isEmpty = false := by
    cases filtered_files with
    | nil => simp at hbig
    | cons a t => rfl
  have hle : ¬ filtered_files.length ≤ max_files := by omega
  constructor
  · intro e he
    simp only [select_best_files, hle, if_false, hne, Bool.false_eq_true, hp, he]
  · intro response hok hparse
    simp only [select_best_files, hle, if_false, hne, Bool.false_eq_true, hp, hok, hparse,
      List.take_nil]

/-- Witness for C3 amended, applying the theorem once with a raising provider
and once with a provider whose reply fails extraction. -/
theorem select_best_files_fallback_C3_witness :
    select_best_files ["c1", "c2", "c3", "c4", "c5", "c6"] [] 5
        ⟨fun _ => .error (.apiError "Featherless API error: timeout")⟩ =
      .ok (["c1", "c2", "c3", "c4", "c5"], 1) ∧
    select_best_files ["c1", "c2", "c3", "c4", "c5", "c6"] [] 5 ⟨fun _ => .ok "no json"⟩ =
      .ok ([], 1) :=
  ⟨(select_best_files_fallback_C3 ["c1", "c2", "c3", "c4", "c5", "c6"] [] 5
      ⟨fun _ => .error (.apiError "Featherless API error: timeout")⟩ _ (by decide) rfl).1
      (.apiError "Featherless API error: timeout") rfl,
   (select_best_files_fallback_C3 ["c1", "c2", "c3", "c4", "c5", "c6"] [] 5
      ⟨fun _ => .ok "no json"⟩ _ (by decide) rfl).2 "no json" rfl rfl⟩

/-! ### Claim C5: which text the extraction fallback searches -/

/-- A reply whose fence content is unparsable while the full trimmed text
contains a parsable object span. -/
def exC5 : String := "\x7b\"score\": 5\x7d and ```json\nnope\n```"

/-- Counterexample to C5 as frozen: on `exC5` the source extraction raises —
the fallback searches only the fence-stripped substring `nope` — while the
claimed behavior (searching the original cleaned text) would succeed with
score 5.  The code therefore does not search the full trimmed input. -/
theorem parse_json_response_C5_cex :
    parse_json_response exC5 = .error (.valueError "No valid JSON found in LLM response") ∧
    parse_json_response_claimed exC5 =
      .ok { passed := .bool false, violations := [], score := 5 } :=
  ⟨rfl, rfl⟩

/-- C5 amended: in all three extraction routines the fallback bracket-span
search runs over the fence-stripped cleaned text (not the original trimmed
input), with a greedy span for objects and a lazy span for arrays; in the
file selector's variant the fallback runs only when the direct parse raised.
Stated as equality with the strategy-pipeline formulations. -/
theorem extraction_fallback_C5 (response : String) (files : List String) :
    parse_json_response response = extract_object_spec response ∧
    parse_llm_file_selection response files = extract_array_spec response files ∧
    parse_file_selection_response response files = extract_array_strict_spec response files := by
  refine ⟨?_, ?_, ?_⟩
  · unfold parse_json_response extract_object_spec firstSome
    cases h1 : jsonLoadsChars (stripFences (pyStrip response.data)) with
    | some v => simp [h1]
    | none =>
      cases h2 : greedyBraceSpan (stripFences (pyStrip response.data)) with
      | some span =>
        cases h3 : jsonLoadsChars span with
        | some v => simp [h1, h2, h3]
        | none => simp [h1, h2, h3]
      | none => simp [h1, h2]
  · unfold parse_llm_file_selection extract_array_spec firstSome
    cases h1 : jsonLoadsChars (stripFences (pyStrip response.data)) with
    | some v =>
      cases v
      case list l => simp [h1]
      all_goals
        cases h2 : lazyBracketSpan (stripFences (pyStrip response.data)) with
        | none => simp [h1, h2]
        | some span =>
          cases h3 : jsonLoadsChars span with
          | none => simp [h1, h2, h3]
          | some w => cases w <;> simp [h1, h2, h3]
    | none =>
      cases h2 : lazyBracketSpan (stripFences (pyStrip response.data)) with
      | none => simp [h1, h2]
      | some span =>
        cases h3 : jsonLoadsChars span with
        | none => simp [h1, h2, h3]
        | some w => cases w <;> simp [h1, h2, h3]
  · unfold parse_file_selection_response extract_array_strict_spec
    cases h1 : jsonLoadsChars (stripFences (pyStrip response.data)) with
    | some v => cases v <;> simp [h1]
    | none =>
      cases h2 : lazyBracketSpan (stripFences (pyStrip response.data)) with
      | none => simp [h1, h2]
      | some span =>
        cases h3 : jsonLoadsChars span with
        | none => simp [h1, h2, h3]
        | some w => cases w <;> simp [h1, h2, h3]

/-! ### Claim C6: sanitization of parsed analysis objects -/

/-- The violations list a parsed mapping carries: the value of the
`violations` key when it is a list, else the empty list. -/
def asViolationList (d : PyDict) : List PyVal :=
  match dGetD d "violations" (.list []) with
  | .list l => l
  | _ => []

/-- The mapping-shaped entries of the violations list, in order. -/
def violationDicts (d : PyDict) : List PyDict :=
  (asViolationList d).filterMap (fun v =>
    match v with
    | .dict vd => some vd
    | _ => none)

/-- Is the `line` value of a violation entry castable: a falsy or absent
value is fine (it becomes null), and a truthy value must survive `int()`. -/
def vLineOk (v : PyVal) : Bool :=
  match v with
  | .dict vd =>
    !pyTruthy (dGetD vd "line" .noneV) ||
      (match pyIntCast (dGetD vd "line" (.int 0)) with
       | .ok _ => true
       | .error _ => false)
  | _ => true

/-- Every violation entry of the parsed mapping has a castable line value. -/
def linesCastable (d : PyDict) : Bool := (asViolationList d).all vLineOk

/-- The claimed shape of one rebuilt violation: file defaults to unknown,
line is the integer cast of a truthy value and null otherwise, severity
defaults to medium, issue and recommendation default to their placeholder
texts, article is string-or-null. -/
def SanVRel (vd : PyDict) (sv : SViolation) : Prop :=
  sv.file = pyStr (dGetD vd "file" (.str "unknown")) ∧
  (pyTruthy (dGetD vd "line" .noneV) = false → sv.line = none) ∧
  (∀ n : Int, pyTruthy (dGetD vd "line" .noneV) = true →
    pyIntCast (dGetD vd "line" (.int 0)) = .ok n → sv.line = some n) ∧
  sv.severity = pyStr (dGetD vd "severity" (.str "medium")) ∧
  sv.issue = pyStr (dGetD vd "issue" (.str "No description")) ∧
  sv.recommendation = pyStr (dGetD vd "recommendation" (.str "No recommendation")) ∧
  sv.article = (if pyTruthy (dGetD vd "article" .noneV) then
    some (pyStr (dGetD vd "article" (.str ""))) else none)

/-- A violation dict with a castable line is rebuilt successfully, with the
claimed defaults. -/
theorem sanitize_violation_ok (vd : PyDict) (hv : vLineOk (.dict vd) = true) :
    ∃ sv, sanitize_violation vd = .ok sv ∧ SanVRel vd sv := by
  by_cases hl : pyTruthy (dGetD vd "line" .noneV) = true
  · have hcast : ∃ n, pyIntCast (dGetD vd "line" (.int 0)) = .ok n := by
      have hv' : (!pyTruthy (dGetD vd "line" PyVal.noneV) ||
          (match pyIntCast (dGetD vd "line" (PyVal.int 0)) with
           | Except.ok _ => true
           | Except.error _ => false)) = true := hv
      rw [hl] at hv'
      simp only [Bool.not_true, Bool.false_or] at hv'
      cases hc : pyIntCast (dGetD vd "line" (.int 0)) with
      | ok n => exact ⟨n, rfl⟩
      | error e => rw [hc] at hv'; simp at hv'
    obtain ⟨n, hn⟩ := hcast
    refine ⟨{ file := pyStr (dGetD vd "file" (.str "unknown"))
              line := some n
              severity := pyStr (dGetD vd "severity" (.str "medium"))
              issue := pyStr (dGetD vd "issue" (.str "No description"))
              recommendation := pyStr (dGetD vd "recommendation" (.str "No recommendation"))
              article := if pyTruthy (dGetD vd "article" .noneV) then
                some (pyStr (dGetD vd "article" (.str ""))) else none }, ?_, ?_⟩
    · simp only [sanitize_violation, hl, if_true, hn, Except.map, bind, Except.bind]
    · refine ⟨rfl, ?_, ?_, rfl, rfl, rfl, rfl⟩
      · intro hfalse
        rw [hl] at hfalse
        exact Bool.noConfusion hfalse
      · intro m _ hm
        rw [hn] at hm
        cases hm
        rfl
  · have hl' : pyTruthy (dGetD vd "line" .noneV) = false := by
      cases h2 : pyTruthy (dGetD vd "line" .noneV)
      · rfl
      · exact absurd h2 hl
    refine ⟨{ file := pyStr (dGetD vd "file" (.str "unknown"))
              line := none
              severity := pyStr (dGetD vd "severity" (.str "medium"))
              issue := pyStr (dGetD vd "issue" (.str "No description"))
              recommendation := pyStr (dGetD vd "recommendation" (.str "No recommendation"))
              article := if pyTruthy (dGetD vd "article" .noneV) then
                some (pyStr (dGetD vd "article" (.str ""))) else none }, ?_, ?_⟩
    · simp only [sanitize_violation, hl', Bool.false_eq_true, if_false, bind, Except.bind]
    · exact ⟨rfl, fun _ => rfl,
        fun m htr _ => by rw [hl'] at htr; exact Bool.noConfusion htr, rfl, rfl, rfl, rfl⟩

/-- A violations list all of whose mapping entries have castable lines is
sanitized successfully: the mapping entries are rebuilt in order with the
claimed defaults, the non-mapping entries are dropped. -/
theorem sanitize_violations_ok (l : List PyVal) (h : l.all vLineOk = true) :
    ∃ svs, sanitize_violations l = .ok svs ∧
      List.Forall₂ SanVRel (l.filterMap (fun v =>
        match v with
        | .dict vd => some vd
        | _ => none)) svs := by
  induction l with
  | nil => exact ⟨[], rfl, List.Forall₂.nil⟩
  | cons v t ih =>
    simp only [List.all_cons, Bool.and_eq_true] at h
    obtain ⟨hv, ht⟩ := h
    obtain ⟨svs, hs, hrel⟩ := ih ht
    cases v with
    | dict vd =>
      obtain ⟨sv, hsv, hr⟩ := sanitize_violation_ok vd hv
      refine ⟨sv :: svs, ?_, ?_⟩
      · simp only [sanitize_violations, hsv, hs, bind, Except.bind]
      · simpa using List.Forall₂.cons hr hrel
    | str s => exact ⟨svs, hs, by simpa using hrel⟩
    | int n => exact ⟨svs, hs, by simpa using hrel⟩
    | float q => exact ⟨svs, hs, by simpa using hrel⟩
    | bool b => exact ⟨svs, hs, by simpa using hrel⟩
    | noneV => exact ⟨svs, hs, by simpa using hrel⟩
    | list xs => exact ⟨svs, hs, by simpa using hrel⟩

/-- Counterexample to C6 as frozen: a parsed mapping whose violation carries
the truthy, non-castable line value abc makes
`validate_and_sanitize_response` raise a `ValueError` (from `int()`) instead
of returning a sanitized mapping. -/
theorem validate_and_sanitize_response_C6_cex :
    validate_and_sanitize_response
        (.dict [("violations", .list [.dict [("line", .str "abc")]])]) =
      .error (.valueError "invalid literal for int with base 10") := rfl

/-- C6 amended: for every parsed input mapping all of whose violation
entries carry castable (or falsy/absent) line values,
`validate_and_sanitize_response` returns, without raising, a mapping whose
score is an integer clamped to the range 0..100 (0 when missing or
non-numeric, the clamp of the cast value when numeric), whose passed value
defaults to false, and whose violations are exactly the mapping entries of
the violations list (a non-list value counting as empty), each rebuilt with
the claimed defaults and with non-mapping entries silently dropped.  When a
violation carries a truthy line value that `int()` cannot cast, the cast's
exception propagates (see the counterexample). -/
theorem validate_and_sanitize_response_C6 (d : PyDict) (h : linesCastable d = true) :
    ∃ r, validate_and_sanitize_response (.dict d) = .ok r ∧
      r.passed = dGetD d "passed" (.bool false) ∧
      0 ≤ r.score ∧ r.score ≤ 100 ∧
      (isPyNumber (dGetD d "score" (.int 0)) = false → r.score = 0) ∧
      (isPyNumber (dGetD d "score" (.int 0)) = true →
        r.score = max 0 (min 100 (pyNumToInt (dGetD d "score" (.int 0))))) ∧
      List.Forall₂ SanVRel (violationDicts d) r.violations ∧
      r.violations.length = (violationDicts d).length := by
  obtain ⟨svs, hs, hrel⟩ := sanitize_violations_ok (asViolationList d) h
  have hs' : sanitize_violations (match dGetD d "violations" (PyVal.list []) with
      | PyVal.list l => l
      | _ => []) = Except.ok svs := hs
  have hvalid : validate_and_sanitize_response (.dict d) = .ok
      { passed := dGetD d "passed" (.bool false)
        violations := svs
        score := if !isPyNumber (dGetD d "score" (.int 0)) then 0
          else max 0 (min 100 (pyNumToInt (dGetD d "score" (.int 0)))) } := by
    simp only [validate_and_sanitize_response, bind, Except.bind, hs']
  refine ⟨_, hvalid, rfl, ?_, ?_, ?_, ?_, hrel, hrel.length_eq.symm⟩
  · by_cases hn : isPyNumber (dGetD d "score" (.int 0)) = true <;> simp [hn]
  · by_cases hn : isPyNumber (dGetD d "score" (.int 0)) = true <;> simp [hn]
  · intro hn
    simp [hn]
  · intro hn
    simp [hn]

/-- A concrete parsed mapping for the C6 witness: out-of-range score 150 and
a violations list mixing a mapping entry and a non-mapping entry. -/
def exC6w : PyDict :=
  [("passed", .bool true), ("score", .int 150),
   ("violations", .list [.dict [("severity", .str "high")], .int 3])]

/-- Witness for C6 amended at `exC6w`: the line-castability hypothesis holds
and the sanitizer returns the clamped, default-filled mapping. -/
theorem validate_and_sanitize_response_C6_witness :
    linesCastable exC6w = true ∧
    (∃ r, validate_and_sanitize_response (.dict exC6w) = .ok r ∧
      r.passed = dGetD exC6w "passed" (.bool false) ∧
      0 ≤ r.score ∧ r.score ≤ 100 ∧
      (isPyNumber (dGetD exC6w "score" (.int 0)) = false → r.score = 0) ∧
      (isPyNumber (dGetD exC6w "score" (.int 0)) = true →
        r.score = max 0 (min 100 (pyNumToInt (dGetD exC6w "score" (.int 0))))) ∧
      List.Forall₂ SanVRel (violationDicts exC6w) r.violations ∧
      r.violations.length = (violationDicts exC6w).length) :=
  ⟨by decide, validate_and_sanitize_response_C6 exC6w (by decide)⟩

/-! ### Claims C8 and C9: the aggregator -/

/-- A failing boolean equality test from a disequality of strings. -/
theorem str_beq_false {a b : String} (h : a ≠ b) : (a == b) = false := by
  cases hb : a == b
  · rfl
  · exact absurd (eq_of_beq hb) h

/-- Updating one key leaves every other key's lookup unchanged. -/
theorem dictSet_lookup_ne (d : PyDict) (k k' : String) (v : PyVal) (h : k' ≠ k) :
    (dictSet d k v).lookup k' = d.lookup k' := by
  induction d with
  | nil => simp [dictSet, List.lookup, str_beq_false h]
  | cons hd t ih =>
    cases hd with
    | mk k1 v1 =>
      by_cases hk : k1 = k
      · subst hk
        simp [dictSet, List.lookup, str_beq_false h]
      · by_cases hk' : k' = k1
        · subst hk'
          simp [dictSet, hk, List.lookup]
        · simp [dictSet, hk, List.lookup, str_beq_false hk', ih]

/-- Updating a key makes its lookup the new value. -/
theorem dictSet_lookup_self (d : PyDict) (k : String) (v : PyVal) :
    (dictSet d k v).lookup k = some v := by
  induction d with
  | nil => simp [dictSet, List.lookup]
  | cons hd t ih =>
    cases hd with
    | mk k1 v1 =>
      by_cases hk : k1 = k
      · subst hk
        simp [dictSet, List.lookup]
      · simp [dictSet, hk, List.lookup, str_beq_false (Ne.symm hk), ih]

/-- The stamping fold preserves the store size. -/
theorem stampFold_length (pairs : List (Nat × PyVal)) (st : List PyDict) :
    (pairs.foldl stampStep st).length = st.length := by
  induction pairs generalizing st with
  | nil => rfl
  | cons p t ih =>
    rw [List.foldl_cons, ih]
    simp [stampStep]

/-- One stamping step changes no key other than `rule_id` in any dict. -/
theorem stampStep_lookup_ne (st : List PyDict) (p : Nat × PyVal) (i : Nat) (k : String)
    (hk : k ≠ "rule_id") :
    ((stampStep st p).getD i []).lookup k = (st.getD i []).lookup k := by
  unfold stampStep
  by_cases hij : p.1 = i
  · subst hij
    by_cases hlen : p.1 < st.length
    · rw [List.getD_eq_getElem?_getD, List.getElem?_set_self hlen, Option.getD_some,
        dictSet_lookup_ne _ _ _ _ hk, List.getD_eq_getElem?_getD]
    · rw [List.set_eq_of_length_le (by omega)]
  · rw [List.getD_eq_getElem?_getD, List.getElem?_set_ne hij, ← List.getD_eq_getElem?_getD]

/-- The stamping fold changes no key other than `rule_id` in any dict. -/
theorem stampFold_lookup_ne (pairs : List (Nat × PyVal)) (st : List PyDict) (i : Nat)
    (k : String) (hk : k ≠ "rule_id") :
    ((pairs.foldl stampStep st).getD i []).lookup k = (st.getD i []).lookup k := by
  induction pairs generalizing st with
  | nil => rfl
  | cons p t ih =>
    rw [List.foldl_cons, ih]
    exact stampStep_lookup_ne st p i k hk

/-- A dict not referenced by any stamped pair is untouched. -/
theorem stampFold_untouched (pairs : List (Nat × PyVal)) (st : List PyDict) (i : Nat)
    (hi : i ∉ pairs.map Prod.fst) :
    (pairs.foldl stampStep st).getD i [] = st.getD i [] := by
  induction pairs generalizing st with
  | nil => rfl
  | cons p t ih =>
    simp only [List.map_cons, List.mem_cons, not_or] at hi
    rw [List.foldl_cons, ih _ hi.2]
    unfold stampStep
    rw [List.getD_eq_getElem?_getD, List.getElem?_set_ne (Ne.symm hi.1),
      ← List.getD_eq_getElem?_getD]

/-- With distinct references in range, every stamped dict ends with its own
rule id under `rule_id`. -/
theorem stampFold_stamped (pairs : List (Nat × PyVal)) (st : List PyDict)
    (hrange : ∀ p ∈ pairs, p.1 < st.length) (hnd : (pairs.map Prod.fst).Nodup) :
    ∀ p ∈ pairs, ((pairs.foldl stampStep st).getD p.1 []).lookup "rule_id" = some p.2 := by
  induction pairs generalizing st with
  | nil => intro p hp; cases hp
  | cons q t ih =>
    intro p hp
    rw [List.foldl_cons]
    simp only [List.map_cons, List.nodup_cons] at hnd
    rcases List.mem_cons.mp hp with rfl | hpt
    · rw [stampFold_untouched t _ p.1 hnd.1]
      unfold stampStep
      have hlen : p.1 < st.length := hrange p (List.mem_cons_self _ _)
      rw [List.getD_eq_getElem?_getD, List.getElem?_set_self hlen, Option.getD_some]
      exact dictSet_lookup_self _ _ _
    · refine ih (stampStep st q) ?_ hnd.2 p hpt
      intro r hr
      have : (stampStep st q).length = st.length := by simp [stampStep]
      rw [this]
      exact hrange r (List.mem_cons_of_mem _ hr)

/-- The first components of the reference/rule-id pairs are exactly the
concatenated violation references. -/
theorem pairsOf_map_fst (results : List RuleRec) :
    (results.flatMap (fun r => r.violations.map (fun i => (i, r.rule_id)))).map Prod.fst =
      results.flatMap (fun r => r.violations) := by
  simp [List.map_flatMap, List.map_map, Function.comp_def]

/-- Python `round` of zero is zero. -/
theorem pyRound_zero : pyRound 0 = 0 := by
  unfold pyRound
  rw [Int.fract_zero]
  norm_num

/-- Python `round` of an integer is that integer. -/
theorem pyRound_intCast (n : Int) : pyRound (n : Rat) = n := by
  unfold pyRound
  rw [Int.fract_intCast]
  norm_num

/-- Python `round` lands within one half of its argument: the result is a
nearest integer. -/
theorem pyRound_nearest (q : Rat) : |(pyRound q : Rat) - q| ≤ 1 / 2 := by
  unfold pyRound
  have h0 := Int.fract_nonneg (α := Rat) q
  have h1 := Int.fract_lt_one (α := Rat) q
  have hfl : (⌊q⌋ : Rat) = q - Int.fract q := by rw [Int.self_sub_fract]
  by_cases hc1 : Int.fract q < 1 / 2
  · rw [if_pos hc1, hfl, abs_le]
    constructor <;> linarith
  · by_cases hc2 : 1 / 2 < Int.fract q
    · rw [if_neg hc1, if_pos hc2]
      push_cast
      rw [hfl, abs_le]
      constructor <;> linarith
    · by_cases he : 2 ∣ ⌊q⌋
      · rw [if_neg hc1, if_neg hc2, if_pos he, hfl, abs_le]
        constructor <;> linarith
      · rw [if_neg hc1, if_neg hc2, if_neg he]
        push_cast
        rw [hfl, abs_le]
        constructor <;> linarith

/-- Characterization of `aggregate_results` on a nonempty input. -/
theorem aggregate_results_eq (results : List RuleRec) (store : List PyDict)
    (hne : results ≠ []) :
    aggregate_results results store =
      ({ score := pyRound (if (results.filterMap (fun r => scoreNum r.score)).isEmpty then 0
           else (results.filterMap (fun r => scoreNum r.score)).sum /
             ((results.filterMap (fun r => scoreNum r.score)).length : Rat))
         violations :=
           (results.flatMap (fun r => r.violations.map (fun i => (i, r.rule_id)))).map Prod.fst
         rules_checked := results.length },
       (results.flatMap (fun r => r.violations.map (fun i => (i, r.rule_id)))).foldl
         stampStep store) := by
  have h : results.isEmpty = false := by
    cases results with
    | nil => exact absurd rfl hne
    | cons a t => rfl
  simp only [aggregate_results, h, Bool.false_eq_true, if_false]

/-- C8: the aggregate's rule count is the record count, its violation list is
the in-order concatenation of the inputs' violation (references) with length
the sum of the violation counts, its score is the Python rounding of the mean
of the usable scores (0 when there are none), that rounding is a nearest
integer, and — for well-formed stores (references in range, distinct dict
objects) — every violation ends stamped with its originating rule id. -/
theorem aggregate_results_C8 (results : List RuleRec) (store : List PyDict) :
    (aggregate_results results store).1.rules_checked = results.length ∧
    (aggregate_results results store).1.violations = results.flatMap (fun r => r.violations) ∧
    (aggregate_results results store).1.violations.length =
      (results.map (fun r => r.violations.length)).sum ∧
    (aggregate_results results store).1.score =
      pyRound (if (results.filterMap (fun r => scoreNum r.score)).isEmpty then 0
        else (results.filterMap (fun r => scoreNum r.score)).sum /
          ((results.filterMap (fun r => scoreNum r.score)).length : Rat)) ∧
    ((results.filterMap (fun r => scoreNum r.score)).isEmpty = false →
      |(((aggregate_results results store).1.score : Int) : Rat) -
          (results.filterMap (fun r => scoreNum r.score)).sum /
            ((results.filterMap (fun r => scoreNum r.score)).length : Rat)| ≤ 1 / 2) ∧
    ((∀ r ∈ results, ∀ i ∈ r.violations, i < store.length) →
      (results.flatMap (fun r => r.violations)).Nodup →
      ∀ r ∈ results, ∀ i ∈ r.violations,
        (((aggregate_results results store).2.getD i []).lookup "rule_id") = some r.rule_id) := by
  by_cases hres : results = []
  · subst hres
    refine ⟨rfl, rfl, rfl, ?_, ?_, ?_⟩
    · exact pyRound_zero.symm
    · intro h; cases h
    · intro _ _ r hr; cases hr
  · rw [aggregate_results_eq results store hres]
    refine ⟨rfl, pairsOf_map_fst results, ?_, rfl, ?_, ?_⟩
    · rw [pairsOf_map_fst results]
      simp [List.length_flatMap, Function.comp_def]
    · intro hvne
      simp only [hvne, Bool.false_eq_true, if_false]
      exact pyRound_nearest _
    · intro hrange hnd r hr i hi
      have hmem : (i, r.rule_id) ∈
          results.flatMap (fun r => r.violations.map (fun i => (i, r.rule_id))) := by
        rw [List.mem_flatMap]
        exact ⟨r, hr, List.mem_map.mpr ⟨i, hi, rfl⟩⟩
      have hrange' : ∀ p ∈ results.flatMap (fun r => r.violations.map (fun i => (i, r.rule_id))),
          p.1 < store.length := by
        intro p hp
        rw [List.mem_flatMap] at hp
        obtain ⟨s, hs, hp⟩ := hp
        rw [List.mem_map] at hp
        obtain ⟨j, hj, rfl⟩ := hp
        exact hrange s hs j hj
      have hnd' : ((results.flatMap
          (fun r => r.violations.map (fun i => (i, r.rule_id)))).map Prod.fst).Nodup := by
        rw [pairsOf_map_fst]
        exact hnd
      exact stampFold_stamped _ store hrange' hnd' (i, r.rule_id) hmem

/-- Concrete records for the C8 witness: scores 80, None, 60 (one errored
record) and two violation dict objects. -/
def exC8res : List RuleRec :=
  [{ rule_id := .str "rA", score := .int 80, violations := [0] },
   { rule_id := .str "rB", score := .noneV, violations := [1] },
   { rule_id := .str "rC", score := .int 60, violations := [] }]

/-- The store of violation dict objects for the C8 witness. -/
def exC8store : List PyDict := [[("file", .str "a.js")], [("file", .str "b.js")]]

/-- Witness for C8 at the spec's own example: references are in range and
distinct, the mean is over the two usable scores, and both guarded
conclusions of the theorem are instantiated. -/
theorem aggregate_results_C8_witness :
    (exC8res.filterMap (fun r => scoreNum r.score)).isEmpty = false ∧
    (∀ r ∈ exC8res, ∀ i ∈ r.violations, i < exC8store.length) ∧
    (exC8res.flatMap (fun r => r.violations)).Nodup ∧
    (|(((aggregate_results exC8res exC8store).1.score : Int) : Rat) -
        (exC8res.filterMap (fun r => scoreNum r.score)).sum /
          ((exC8res.filterMap (fun r => scoreNum r.score)).length : Rat)| ≤ 1 / 2) ∧
    (∀ r ∈ exC8res, ∀ i ∈ r.violations,
      (((aggregate_results exC8res exC8store).2.getD i []).lookup "rule_id") =
        some r.rule_id) :=
  ⟨by decide, by decide, by decide,
    (aggregate_results_C8 exC8res exC8store).2.2.2.2.1 (by decide),
    (aggregate_results_C8 exC8res exC8store).2.2.2.2.2 (by decide) (by decide)⟩

/-- Counterexample to C9 as frozen: aggregation mutates its input violation
dicts — after the call the single violation dict carries a new `rule_id`
binding, so the store of input objects is changed. -/
theorem aggregate_results_C9_cex :
    (aggregate_results [{ rule_id := .str "r1", score := .int 80, violations := [0] }]
        [[("file", .str "a.js")]]).2 =
      [[("file", .str "a.js"), ("rule_id", .str "r1")]] ∧
    (aggregate_results [{ rule_id := .str "r1", score := .int 80, violations := [0] }]
        [[("file", .str "a.js")]]).2 ≠ [[("file", .str "a.js")]] :=
  ⟨rfl, by
    intro h
    exact absurd (congrArg (fun st => (st.getD 0 ([] : PyDict)).length) h) (by decide)⟩

/-- C9 amended: `aggregate_results` raises no error and leaves the store
size, every key other than `rule_id` of every violation dict, and every
unreferenced violation dict unchanged; its only side effect is stamping the
referenced violation dicts with `rule_id` in place. -/
theorem aggregate_results_frame_C9 (results : List RuleRec) (store : List PyDict) :
    (aggregate_results results store).2.length = store.length ∧
    (∀ i : Nat, ∀ k : String, k ≠ "rule_id" →
      (((aggregate_results results store).2.getD i []).lookup k) =
        ((store.getD i []).lookup k)) ∧
    (∀ i : Nat, i ∉ results.flatMap (fun r => r.violations) →
      (aggregate_results results store).2.getD i [] = store.getD i []) := by
  by_cases hres : results = []
  · subst hres
    exact ⟨rfl, fun _ _ _ => rfl, fun _ _ => rfl⟩
  · rw [aggregate_results_eq results store hres]
    refine ⟨stampFold_length _ _, fun i k hk => stampFold_lookup_ne _ _ _ _ hk,
      fun i hi => stampFold_untouched _ _ _ ?_⟩
    rw [pairsOf_map_fst]
    exact hi

/-- Witness for C9 amended at a concrete store: the `file` binding of the
stamped dict is untouched. -/
theorem aggregate_results_frame_C9_witness :
    ("file" : String) ≠ "rule_id" ∧
    (((aggregate_results [{ rule_id := .str "rX", score := .int 40, violations := [0] }]
          [[("file", .str "w.js")]]).2.getD 0 []).lookup "file") =
      ((([[("file", .str "w.js")]] : List PyDict).getD 0 []).lookup "file") :=
  ⟨by decide,
    (aggregate_results_frame_C9 [{ rule_id := .str "rX", score := .int 40, violations := [0] }]
      [[("file", .str "w.js")]]).2.1 0 "file" (by decide)⟩

/-! ### Claims C10, C1 and C2: the per-rule orchestration

Well-typedness of a rule dictionary: the fields the selection phase accesses
outside any protected region, where present, have shapes on which the
dynamic attribute accesses and slicings succeed. -/

/-- Is the value a string? -/
def isStrVal : PyVal → Bool
  | .str _ => true
  | _ => false

/-- Is the value a dict? -/
def isDictVal : PyVal → Bool
  | .dict _ => true
  | _ => false

/-- Shapes of a `file_keywords` value on which the keyword filter does not
raise: a list of strings, or a string or dict (which iterate to strings). -/
def wtKeywords (v : PyVal) : Bool :=
  match v with
  | .list ks => ks.all isStrVal
  | .str _ => true
  | .dict _ => true
  | _ => false

/-- Shapes of a `red_patterns` value on which the selection-prompt
construction does not raise: a list whose first three entries are dicts. -/
def wtRedPatterns (v : PyVal) : Bool :=
  match v with
  | .list ps => (ps.take 3).all isDictVal
  | _ => false

/-- Well-typedness of a `code_checks` value. -/
def wtCodeChecks (v : PyVal) : Bool :=
  match v with
  | .dict d =>
    (match d.lookup "file_keywords" with
     | some kw => wtKeywords kw
     | none => true) &&
    (match d.lookup "red_patterns" with
     | some rp => wtRedPatterns rp
     | none => true)
  | _ => false

/-- Well-typedness of a rule dictionary for the selection phase. -/
def wtRule (rule : PyDict) : Bool :=
  match rule.lookup "code_checks" with
  | some cc => wtCodeChecks cc
  | none => true

/-- `mapE` succeeds when the function succeeds on every element. -/
theorem mapE_ok_of_forall {f : α → Except PyErr β} {l : List α}
    (h : ∀ a ∈ l, ∃ b, f a = .ok b) : ∃ bs, mapE f l = .ok bs := by
  induction l with
  | nil => exact ⟨[], rfl⟩
  | cons a t ih =>
    obtain ⟨b, hb⟩ := h a (List.mem_cons_self _ _)
    obtain ⟨bs, hbs⟩ := ih (fun x hx => h x (List.mem_cons_of_mem _ hx))
    exact ⟨b :: bs, by simp [mapE, hb, hbs]⟩

/-- A failure of `mapE` is the failure of `f` on some element. -/
theorem mapE_error_mem {f : α → Except PyErr β} {l : List α} {e : PyErr}
    (h : mapE f l = .error e) : ∃ a ∈ l, f a = .error e := by
  induction l with
  | nil => cases h
  | cons a t ih =>
    cases hfa : f a with
    | error e' =>
      simp only [mapE, hfa] at h
      cases h
      exact ⟨a, List.mem_cons_self _ _, hfa⟩
    | ok b =>
      cases hft : mapE f t with
      | error e2 =>
        simp only [mapE, hfa, hft] at h
        cases h
        obtain ⟨x, hx, hfx⟩ := ih hft
        exact ⟨x, List.mem_cons_of_mem _ hx, hfx⟩
      | ok bs => simp [mapE, hfa, hft] at h

/-- Iterating a well-typed keywords value succeeds. -/
theorem pyStrSeq_total (v : PyVal) (h : wtKeywords v = true) :
    ∃ l, pyStrSeq v = .ok l := by
  cases v with
  | list ks =>
    refine mapE_ok_of_forall ?_
    intro k hk
    have hks : isStrVal k = true := by
      have : ks.all isStrVal = true := h
      exact List.all_eq_true.mp this k hk
    cases k <;> simp_all [isStrVal]
  | str s => exact ⟨_, rfl⟩
  | dict d => exact ⟨_, rfl⟩
  | int n => simp [wtKeywords] at h
  | float q => simp [wtKeywords] at h
  | bool b => simp [wtKeywords] at h
  | noneV => simp [wtKeywords] at h

/-- The dynamic keyword filter succeeds on a well-typed keywords value. -/
theorem py_filter_by_keywords_total (files : List String) (kw : PyVal)
    (h : wtKeywords kw = true) :
    ∃ l, py_filter_by_keywords files kw = .ok l := by
  by_cases ht : pyTruthy kw = true
  · obtain ⟨ks, hks⟩ := pyStrSeq_total kw h
    refine ⟨files.filter (fun filepath =>
      (ks.map pyLower).any (fun keyword => strContains (pyLower filepath) keyword)), ?_⟩
    simp only [py_filter_by_keywords, ht, Bool.not_true, Bool.false_eq_true, if_false,
      bind, Except.bind, hks]
  · have ht' : pyTruthy kw = false := by
      cases h2 : pyTruthy kw
      · rfl
      · exact absurd h2 ht
    exact ⟨files, by simp [py_filter_by_keywords, ht']⟩

/-- A bind in `Except` succeeds when its head succeeds and its continuation
succeeds on the delivered value. -/
theorem exceptBind_total {α β : Type} {a : Except PyErr α} {f : α → Except PyErr β}
    (h : ∃ x, a = Except.ok x ∧ ∃ y, f x = Except.ok y) :
    ∃ y, (a >>= f) = Except.ok y := by
  obtain ⟨x, hx, y, hy⟩ := h
  refine ⟨y, ?_⟩
  rw [hx]
  simpa [bind, Except.bind] using hy

/-- Building the selection prompt succeeds on a well-typed rule. -/
theorem build_selection_prompt_total (files : List String) (rule : PyDict) (m : Nat)
    (hwt : wtRule rule = true) :
    ∃ s, build_selection_prompt files rule m = .ok s := by
  unfold build_selection_prompt
  cases hcc : rule.lookup "code_checks" with
  | none =>
    have hgd : dGetD rule "code_checks" (.dict []) = .dict [] := by simp [dGetD, hcc]
    rw [hgd]
    exact ⟨_, rfl⟩
  | some cc =>
    have hwcc : wtCodeChecks cc = true := by
      have h0 : wtRule rule = true := hwt
      unfold wtRule at h0
      rw [hcc] at h0
      exact h0
    have hgd : dGetD rule "code_checks" (.dict []) = cc := by simp [dGetD, hcc]
    rw [hgd]
    cases cc with
    | dict d =>
      simp only [wtCodeChecks, Bool.and_eq_true] at hwcc
      have hrp : ∃ ps, dGetD d "red_patterns" (.list []) = .list ps ∧
          (ps.take 3).all isDictVal = true := by
        cases hrpl : d.lookup "red_patterns" with
        | none => exact ⟨[], by simp [dGetD, hrpl], rfl⟩
        | some rp =>
          have h2 := hwcc.2
          rw [hrpl] at h2
          cases rp <;> simp [wtRedPatterns] at h2
          case list ps => exact ⟨ps, by simp [dGetD, hrpl], List.all_eq_true.mpr h2⟩
      obtain ⟨ps, hps, hall⟩ := hrp
      have hmap : ∃ ds, mapE (fun p => pyGetD p "pattern" (.str "")) (ps.take 3) = .ok ds := by
        refine mapE_ok_of_forall ?_
        intro p hp
        have hd : isDictVal p = true := List.all_eq_true.mp hall p hp
        cases p <;> simp_all [isDictVal, pyGetD]
      obtain ⟨ds, hds⟩ := hmap
      refine exceptBind_total ⟨_, rfl, ?_⟩
      refine exceptBind_total ⟨_, rfl, ?_⟩
      rw [hps]
      refine exceptBind_total ⟨ps.take 3, rfl, ?_⟩
      exact exceptBind_total ⟨ds, hds, ⟨_, rfl⟩⟩
    | str s => simp [wtCodeChecks] at hwcc
    | int n => simp [wtCodeChecks] at hwcc
    | float q => simp [wtCodeChecks] at hwcc
    | bool b => simp [wtCodeChecks] at hwcc
    | noneV => simp [wtCodeChecks] at hwcc
    | list xs => simp [wtCodeChecks] at hwcc

/-- The LLM-backed selector never raises on a well-typed rule. -/
theorem select_best_files_total (files : List String) (rule : PyDict) (m : Nat)
    (client : FeatherlessClient) (hwt : wtRule rule = true) :
    ∃ out, select_best_files files rule m client = .ok out := by
  unfold select_best_files
  by_cases hlen : files.length ≤ m
  · rw [if_pos hlen]
    exact ⟨_, rfl⟩
  · rw [if_neg hlen]
    by_cases he : files.isEmpty
    · rw [if_pos he]
      exact ⟨_, rfl⟩
    · rw [if_neg he]
      obtain ⟨s, hs⟩ := build_selection_prompt_total files rule m hwt
      rw [hs]
      show ∃ out, (match client.generate_completion s with
        | Except.error _ => Except.ok (files.take m, 1)
        | Except.ok response =>
          Except.ok ((parse_file_selection_response response files).take m, 1)) =
        Except.ok out
      cases hg : client.generate_completion s with
      | error e => exact ⟨_, rfl⟩
      | ok r => exact ⟨_, rfl⟩

/-- The code-file branch never raises on a well-typed rule. -/
theorem code_file_selection_total (rule : PyDict) (repo : Repo)
    (client : FeatherlessClient) (hwt : wtRule rule = true) :
    ∃ out, code_file_selection rule repo client = .ok out := by
  unfold code_file_selection
  by_cases hct : pyMemStrList (dGetD rule "check_type" (.str "both")) ["code", "both"] = true
  · rw [if_pos hct]
    cases hcc : rule.lookup "code_checks" with
    | none =>
      have hgd : dGetD rule "code_checks" (.dict []) = .dict [] := by simp [dGetD, hcc]
      rw [hgd]
      exact ⟨_, rfl⟩
    | some cc =>
      have hwcc : wtCodeChecks cc = true := by
        have h0 : wtRule rule = true := hwt
        unfold wtRule at h0
        rw [hcc] at h0
        exact h0
      have hgd : dGetD rule "code_checks" (.dict []) = cc := by simp [dGetD, hcc]
      rw [hgd]
      cases cc with
      | dict d =>
        show ∃ out, (if pyTruthy (dGetD d "enabled" (PyVal.bool false)) = true then
            (match pyGetD (PyVal.dict d) "file_keywords" (PyVal.list []) with
             | Except.error e => Except.error e
             | Except.ok keywords =>
               match py_filter_by_keywords repo.code_files keywords with
               | Except.error e => Except.error e
               | Except.ok filtered_code =>
                 if filtered_code.isEmpty then Except.ok (([] : List String), 0)
                 else select_best_files filtered_code rule 3 client)
          else Except.ok (([] : List String), 0)) = Except.ok out
        by_cases hen : pyTruthy (dGetD d "enabled" (.bool false)) = true
        · rw [if_pos hen]
          have hkw : wtKeywords (dGetD d "file_keywords" (.list [])) = true := by
            simp only [wtCodeChecks, Bool.and_eq_true] at hwcc
            cases hkl : d.lookup "file_keywords" with
            | none => simp [dGetD, hkl, wtKeywords]
            | some kw =>
              have h1 := hwcc.1
              rw [hkl] at h1
              simpa [dGetD, hkl] using h1
          obtain ⟨fl, hfl⟩ := py_filter_by_keywords_total repo.code_files
            (dGetD d "file_keywords" (.list [])) hkw
          show ∃ out, (match py_filter_by_keywords repo.code_files
              (dGetD d "file_keywords" (PyVal.list [])) with
            | Except.error e => Except.error e
            | Except.ok filtered_code =>
              if filtered_code.isEmpty then Except.ok (([] : List String), 0)
              else select_best_files filtered_code rule 3 client) = Except.ok out
          rw [hfl]
          show ∃ out, (if fl.isEmpty then Except.ok (([] : List String), 0)
            else select_best_files fl rule 3 client) = Except.ok out
          by_cases hfe : fl.isEmpty
          · rw [if_pos hfe]
            exact ⟨_, rfl⟩
          · rw [if_neg hfe]
            exact select_best_files_total fl rule 3 client hwt
        · rw [if_neg hen]
          exact ⟨_, rfl⟩
      | str s => simp [wtCodeChecks] at hwcc
      | int n => simp [wtCodeChecks] at hwcc
      | float q => simp [wtCodeChecks] at hwcc
      | bool b => simp [wtCodeChecks] at hwcc
      | noneV => simp [wtCodeChecks] at hwcc
      | list xs => simp [wtCodeChecks] at hwcc
  · rw [if_neg hct]
    exact ⟨_, rfl⟩

/-- The selection stage of `analyze_rule` never raises on a well-typed rule. -/
theorem rule_file_selection_total (rule : PyDict) (repo : Repo)
    (client : FeatherlessClient) (hwt : wtRule rule = true) :
    ∃ out, rule_file_selection rule repo client = .ok out := by
  obtain ⟨cs, hcs⟩ := code_file_selection_total rule repo client hwt
  unfold rule_file_selection
  rw [hcs]
  exact ⟨_, rfl⟩

/-- Inversion for a failing bind in `Except`. -/
theorem exceptBind_error {α β : Type} {a : Except PyErr α} {f : α → Except PyErr β} {e : PyErr}
    (h : (a >>= f) = .error e) :
    a = .error e ∨ ∃ x, a = .ok x ∧ f x = .error e := by
  cases ha : a with
  | error e' =>
    rw [ha] at h
    simp only [bind, Except.bind] at h
    cases h
    exact Or.inl rfl
  | ok x =>
    rw [ha] at h
    simp only [bind, Except.bind] at h
    exact Or.inr ⟨x, rfl, h⟩

/-- Attribute-access failures carry a nonempty message. -/
theorem pyGetD_error_msg {v : PyVal} {k : String} {dflt : PyVal} {e : PyErr}
    (h : pyGetD v k dflt = .error e) : pyErrMsg e ≠ "" := by
  cases v <;> simp [pyGetD] at h <;> subst h <;> decide

/-- Integer-cast failures carry a nonempty message. -/
theorem pyIntCast_error_msg {v : PyVal} {e : PyErr}
    (h : pyIntCast v = .error e) : pyErrMsg e ≠ "" := by
  cases v with
  | str s =>
    have h' : (match pyParseInt s with
      | some n => Except.ok (ε := PyErr) n
      | none => Except.error (PyErr.valueError "invalid literal for int with base 10")) =
        Except.error e := h
    cases hp : pyParseInt s with
    | some n => rw [hp] at h'; cases h'
    | none => rw [hp] at h'; cases h'; decide
  | int n => cases h
  | bool b => cases h
  | float q => cases h
  | noneV => cases h; decide
  | list xs => cases h; decide
  | dict xs => cases h; decide

/-- Slicing failures carry a nonempty message. -/
theorem pySlice_error_msg {v : PyVal} {n : Nat} {e : PyErr}
    (h : pySlice v n = .error e) : pyErrMsg e ≠ "" := by
  cases v <;> simp [pySlice] at h <;> subst h <;> decide

/-- Violation-sanitization failures carry a nonempty message. -/
theorem sanitize_violation_error_msg {vd : PyDict} {e : PyErr}
    (h : sanitize_violation vd = .error e) : pyErrMsg e ≠ "" := by
  by_cases hl : pyTruthy (dGetD vd "line" .noneV) = true
  · cases hc : pyIntCast (dGetD vd "line" (.int 0)) with
    | ok m => simp [sanitize_violation, hl, hc, Except.map, bind, Except.bind] at h
    | error e' =>
      have he : e = e' := by
        simp only [sanitize_violation, hl, if_true, hc, Except.map, bind, Except.bind] at h
        cases h
        rfl
      exact he ▸ pyIntCast_error_msg hc
  · have hl' : pyTruthy (dGetD vd "line" .noneV) = false := by
      cases h2 : pyTruthy (dGetD vd "line" .noneV)
      · rfl
      · exact absurd h2 hl
    simp [sanitize_violation, hl', bind, Except.bind] at h

/-- A failure of the violations-list sanitizer is a per-entry failure. -/
theorem sanitize_violations_error_mem {l : List PyVal} {e : PyErr}
    (h : sanitize_violations l = .error e) :
    ∃ vd, sanitize_violation vd = .error e := by
  induction l with
  | nil => cases h
  | cons v t ih =>
    cases v with
    | dict vd =>
      cases hv : sanitize_violation vd with
      | error e' =>
        simp only [sanitize_violations, hv, bind, Except.bind] at h
        cases h
        exact ⟨vd, hv⟩
      | ok sv =>
        cases ht : sanitize_violations t with
        | error e2 =>
          simp only [sanitize_violations, hv, ht, bind, Except.bind] at h
          cases h
          exact ih ht
        | ok svs => simp [sanitize_violations, hv, ht, bind, Except.bind] at h
    | str s => exact ih h
    | int n => exact ih h
    | float q => exact ih h
    | bool b => exact ih h
    | noneV => exact ih h
    | list xs => exact ih h

/-- Sanitizer failures carry a nonempty message. -/
theorem validate_error_msg {data : PyVal} {e : PyErr}
    (h : validate_and_sanitize_response data = .error e) : pyErrMsg e ≠ "" := by
  cases data with
  | dict d =>
    unfold validate_and_sanitize_response at h
    rcases exceptBind_error h with hsv | ⟨x, _, hfx⟩
    · obtain ⟨vd, hvd⟩ := sanitize_violations_error_mem hsv
      exact sanitize_violation_error_msg hvd
    · cases hfx
  | str s => cases h; decide
  | int n => cases h; decide
  | float q => cases h; decide
  | bool b => cases h; decide
  | noneV => cases h; decide
  | list xs => cases h; decide

/-- Object-extraction failures carry a nonempty message. -/
theorem parse_json_response_error_msg {response : String} {e : PyErr}
    (h : parse_json_response response = .error e) : pyErrMsg e ≠ "" := by
  have h' : (match jsonLoadsChars (stripFences (pyStrip response.data)) with
    | some v => validate_and_sanitize_response v
    | none =>
      match greedyBraceSpan (stripFences (pyStrip response.data)) with
      | some span =>
        match jsonLoadsChars span with
        | some v => validate_and_sanitize_response v
        | none => Except.error (PyErr.valueError "No valid JSON found in LLM response")
      | none => Except.error (PyErr.valueError "No valid JSON found in LLM response")) =
      Except.error e := h
  cases h1 : jsonLoadsChars (stripFences (pyStrip response.data)) with
  | some v =>
    rw [h1] at h'
    exact validate_error_msg h'
  | none =>
    rw [h1] at h'
    have hA : (match greedyBraceSpan (stripFences (pyStrip response.data)) with
      | some span =>
        match jsonLoadsChars span with
        | some v => validate_and_sanitize_response v
        | none => Except.error (PyErr.valueError "No valid JSON found in LLM response")
      | none => Except.error (PyErr.valueError "No valid JSON found in LLM response")) =
        Except.error e := h'
    cases h2 : greedyBraceSpan (stripFences (pyStrip response.data)) with
    | some span =>
      rw [h2] at hA
      have hB : (match jsonLoadsChars span with
        | some v => validate_and_sanitize_response v
        | none => Except.error (PyErr.valueError "No valid JSON found in LLM response")) =
          Except.error e := hA
      cases h3 : jsonLoadsChars span with
      | some v =>
        rw [h3] at hB
        exact validate_error_msg hB
      | none =>
        rw [h3] at hB
        cases hB
        decide
    | none =>
      rw [h2] at hA
      cases hA
      decide

/-- Analysis-prompt construction failures carry a nonempty message. -/
theorem build_analysis_prompt_error_msg {rule : PyDict} {fc : List (String × String)}
    {e : PyErr} (h : build_analysis_prompt rule fc = .error e) : pyErrMsg e ≠ "" := by
  unfold build_analysis_prompt at h
  rcases exceptBind_error h with h1 | ⟨rp, _, h1⟩
  · exact pyGetD_error_msg h1
  · rcases exceptBind_error h1 with h2 | ⟨rp5, _, h2⟩
    · exact pySlice_error_msg h2
    · rcases exceptBind_error h2 with h3 | ⟨triples, _, h3⟩
      · obtain ⟨p, _, hp⟩ := mapE_error_mem h3
        rcases exceptBind_error hp with h4 | ⟨pat, _, h4⟩
        · exact pyGetD_error_msg h4
        · rcases exceptBind_error h4 with h5 | ⟨sev, _, h5⟩
          · exact pyGetD_error_msg h5
          · rcases exceptBind_error h5 with h6 | ⟨expl, _, h6⟩
            · exact pyGetD_error_msg h6
            · cases h6
      · cases h3

/-- Inversion of a successful `call_llm_for_rule`. -/
theorem call_llm_ok_inv {rule : PyDict} {fc : List (String × String)}
    {client : FeatherlessClient} {san : SanResult} {k : Nat}
    (h : call_llm_for_rule rule fc client = (.ok san, k)) :
    ∃ p resp, build_analysis_prompt rule fc = .ok p ∧
      client.generate_completion p = .ok resp ∧
      parse_json_response resp = .ok san ∧ k = 1 := by
  unfold call_llm_for_rule at h
  cases hb : build_analysis_prompt rule fc with
  | error e => rw [hb] at h; simp at h
  | ok p =>
    rw [hb] at h
    have hA : (match client.generate_completion p with
      | Except.error e => ((Except.error e : Except PyErr SanResult), 1)
      | Except.ok response => (parse_json_response response, 1)) = (Except.ok san, k) := h
    cases hg : client.generate_completion p with
    | error e => rw [hg] at hA; simp at hA
    | ok resp =>
      rw [hg] at hA
      simp only [Prod.mk.injEq] at hA
      exact ⟨p, resp, rfl, hg, hA.1, hA.2.symm⟩

/-- Inversion of a failing `call_llm_for_rule`. -/
theorem call_llm_error_inv {rule : PyDict} {fc : List (String × String)}
    {client : FeatherlessClient} {e : PyErr} {k : Nat}
    (h : call_llm_for_rule rule fc client = (.error e, k)) :
    build_analysis_prompt rule fc = .error e ∨
    (∃ p, build_analysis_prompt rule fc = .ok p ∧ client.generate_completion p = .error e) ∨
    (∃ p resp, build_analysis_prompt rule fc = .ok p ∧
      client.generate_completion p = .ok resp ∧ parse_json_response resp = .error e) := by
  unfold call_llm_for_rule at h
  cases hb : build_analysis_prompt rule fc with
  | error e' =>
    rw [hb] at h
    simp only [Prod.mk.injEq] at h
    cases h.1
    exact Or.inl rfl
  | ok p =>
    rw [hb] at h
    have hA : (match client.generate_completion p with
      | Except.error e => ((Except.error e : Except PyErr SanResult), 1)
      | Except.ok response => (parse_json_response response, 1)) = (Except.error e, k) := h
    cases hg : client.generate_completion p with
    | error e' =>
      rw [hg] at hA
      simp only [Prod.mk.injEq, Except.error.injEq] at hA
      obtain ⟨he, hk⟩ := hA
      subst he
      exact Or.inr (Or.inl ⟨p, rfl, hg⟩)
    | ok resp =>
      rw [hg] at hA
      simp only [Prod.mk.injEq] at hA
      exact Or.inr (Or.inr ⟨p, resp, rfl, hg, hA.1⟩)

/-- Failures reaching the protected region of `analyze_rule` carry a
nonempty message, provided the provider's own failures do. -/
theorem call_llm_error_msg {rule : PyDict} {fc : List (String × String)}
    {client : FeatherlessClient} {e : PyErr} {k : Nat}
    (hmsg : ∀ p e', client.generate_completion p = .error e' → pyErrMsg e' ≠ "")
    (h : call_llm_for_rule rule fc client = (.error e, k)) : pyErrMsg e ≠ "" := by
  rcases call_llm_error_inv h with h1 | ⟨p, _, h1⟩ | ⟨p, resp, _, _, h1⟩
  · exact build_analysis_prompt_error_msg h1
  · exact hmsg p e h1
  · exact parse_json_response_error_msg h1

/-- Inversion of a successful `analyze_rule` run into its three outcomes. -/
theorem analyze_rule_ok_inv {rule : PyDict} {repo : Repo} {client : FeatherlessClient}
    {mk : Except PyErr FeatherlessClient} {res : RuleResult} {n : Nat}
    (h : analyze_rule rule repo (some client) mk = .ok (res, n)) :
    ∃ sel k, rule_file_selection rule repo client = .ok (sel, k) ∧
      ((sel = [] ∧ res = emptyFilesResult rule ∧ n = k) ∨
       (sel ≠ [] ∧
        ((∃ san m, call_llm_for_rule rule (read_selected repo sel) client = (.ok san, m) ∧
            res = llmSuccessResult rule san (read_selected repo sel) ∧ n = k + m) ∨
         (∃ e m, call_llm_for_rule rule (read_selected repo sel) client = (.error e, m) ∧
            res = llmErrorResult rule e (read_selected repo sel) ∧ n = k + m)))) := by
  have h0 : (match rule_file_selection rule repo client with
    | Except.error e => Except.error e
    | Except.ok sel =>
      if sel.1.isEmpty then Except.ok (emptyFilesResult rule, sel.2)
      else
        match call_llm_for_rule rule (read_selected repo sel.1) client with
        | (Except.ok result, k) =>
          Except.ok (llmSuccessResult rule result (read_selected repo sel.1), sel.2 + k)
        | (Except.error e, k) =>
          Except.ok (llmErrorResult rule e (read_selected repo sel.1), sel.2 + k)) =
      Except.ok (res, n) := h
  clear h
  cases hsel : rule_file_selection rule repo client with
  | error e => rw [hsel] at h0; simp at h0
  | ok selp =>
    obtain ⟨sel, k⟩ := selp
    rw [hsel] at h0
    refine ⟨sel, k, rfl, ?_⟩
    cases sel with
    | nil =>
      have h2 : Except.ok (ε := PyErr) (emptyFilesResult rule, k) = .ok (res, n) := h0
      cases h2
      exact Or.inl ⟨rfl, rfl, rfl⟩
    | cons a t =>
      have h2 : (match call_llm_for_rule rule (read_selected repo (a :: t)) client with
          | (.ok result, m) =>
            Except.ok (ε := PyErr) (llmSuccessResult rule result (read_selected repo (a :: t)), k + m)
          | (.error e, m) =>
            Except.ok (llmErrorResult rule e (read_selected repo (a :: t)), k + m)) =
          .ok (res, n) := h0
      cases hc : call_llm_for_rule rule (read_selected repo (a :: t)) client with
      | mk exc m =>
        rw [hc] at h2
        cases exc with
        | ok san =>
          have h3 : Except.ok (ε := PyErr)
              (llmSuccessResult rule san (read_selected repo (a :: t)), k + m) =
              .ok (res, n) := h2
          cases h3
          exact Or.inr ⟨List.cons_ne_nil a t, Or.inl ⟨san, m, rfl, rfl, rfl⟩⟩
        | error e =>
          have h3 : Except.ok (ε := PyErr)
              (llmErrorResult rule e (read_selected repo (a :: t)), k + m) =
              .ok (res, n) := h2
          cases h3
          exact Or.inr ⟨List.cons_ne_nil a t, Or.inr ⟨e, m, rfl, rfl, rfl⟩⟩

/-- A concrete rule for the C10 counterexample: enabled code checks whose
keyword filter matches four files, forcing an LLM selection round. -/
def ruleC10cex : PyDict :=
  [("id", .str "r2"), ("check_type", .str "code"),
   ("code_checks", .dict [("enabled", .bool true), ("file_keywords", .list [.str "a"]),
    ("red_patterns", .list [])])]

/-- A repository with four matching code files and no documentation. -/
def repoC10cex : Repo :=
  { code_files := ["a1.js", "a2.js", "a3.js", "a4.js"], doc_files := [],
    read_file := fun _ => .ok "x" }

/-- Counterexample to C10 as frozen: the provider reply `garbage` makes the
selection come back empty, so the combined selection is empty and
`analyze_rule` short-circuits with the passing result — but the completion
provider has been invoked once (for file selection), not zero times. -/
theorem analyze_rule_C10_cex :
    analyze_rule ruleC10cex repoC10cex (some ⟨fun _ => .ok "garbage"⟩)
        (.error (.valueError "FEATHERLESS API KEY not found in environment")) =
      .ok (emptyFilesResult ruleC10cex, 1) ∧
    analyze_rule ruleC10cex repoC10cex (some ⟨fun _ => .ok "garbage"⟩)
        (.error (.valueError "FEATHERLESS API KEY not found in environment")) ≠
      .ok (emptyFilesResult ruleC10cex, 0) :=
  ⟨rfl, fun h => absurd (congrArg (fun x =>
      match x with
      | Except.ok p => p.2
      | Except.error _ => 0) h) (by decide)⟩

/-- C10 amended: whenever the file-selection stage yields the empty combined
selection, `analyze_rule` short-circuits with the passing result — passed
true, score 100, no violations, the explanatory note, empty files list —
and performs no completion call beyond those already made during selection;
when the emptiness stems from disabled (or absent) code checks together
with zero documentation files, the provider is not invoked at all. -/
theorem analyze_rule_empty_selection_C10 (rule : PyDict) (repo : Repo)
    (client : FeatherlessClient) (mk : Except PyErr FeatherlessClient) (n : Nat) (ev : PyVal) :
    (rule_file_selection rule repo client = .ok ([], n) →
      analyze_rule rule repo (some client) mk = .ok (emptyFilesResult rule, n)) ∧
    (pyGetD (dGetD rule "code_checks" (.dict [])) "enabled" (.bool false) = .ok ev →
      pyTruthy ev = false → repo.doc_files = [] →
      rule_file_selection rule repo client = .ok ([], 0)) := by
  constructor
  · intro hsel
    have h0 : analyze_rule rule repo (some client) mk =
      (match rule_file_selection rule repo client with
       | Except.error e => Except.error e
       | Except.ok sel =>
         if sel.1.isEmpty then Except.ok (emptyFilesResult rule, sel.2)
         else
           match call_llm_for_rule rule (read_selected repo sel.1) client with
           | (Except.ok result, m) =>
             Except.ok (llmSuccessResult rule result (read_selected repo sel.1), sel.2 + m)
           | (Except.error e, m) =>
             Except.ok (llmErrorResult rule e (read_selected repo sel.1), sel.2 + m)) := rfl
    rw [h0, hsel]
    rfl
  · intro hev htr hdocs
    have hcode : code_file_selection rule repo client = .ok ([], 0) := by
      unfold code_file_selection
      by_cases hct : pyMemStrList (dGetD rule "check_type" (.str "both")) ["code", "both"] = true
      · rw [if_pos hct, hev]
        show (if pyTruthy ev = true then
            (match pyGetD (dGetD rule "code_checks" (PyVal.dict [])) "file_keywords"
                (PyVal.list []) with
             | Except.error e => Except.error e
             | Except.ok keywords =>
               match py_filter_by_keywords repo.code_files keywords with
               | Except.error e => Except.error e
               | Except.ok filtered_code =>
                 if filtered_code.isEmpty then Except.ok (([] : List String), 0)
                 else select_best_files filtered_code rule 3 client)
          else Except.ok (([] : List String), 0)) = Except.ok ([], 0)
        rw [if_neg (by rw [htr]; exact Bool.noConfusion)]
      · rw [if_neg hct]
    unfold rule_file_selection
    rw [hcode, hdocs]
    simp

/-- A rule with defaulted (absent) code checks for the C10 witness. -/
def ruleC10w : PyDict := [("id", .str "w10"), ("check_type", .str "code")]

/-- A repository with no documentation files for the C10 witness. -/
def repoC10w : Repo :=
  { code_files := ["m.js"], doc_files := [], read_file := fun _ => .ok "x" }

/-- Witness for C10 amended: absent code checks and zero doc files give the
short-circuit result with zero provider calls. -/
theorem analyze_rule_empty_selection_C10_witness :
    analyze_rule ruleC10w repoC10w (some ⟨fun _ => .ok "zzz"⟩)
        (.error (.valueError "no key")) = .ok (emptyFilesResult ruleC10w, 0) ∧
    rule_file_selection ruleC10w repoC10w ⟨fun _ => .ok "zzz"⟩ = .ok ([], 0) :=
  ⟨(analyze_rule_empty_selection_C10 ruleC10w repoC10w ⟨fun _ => .ok "zzz"⟩
      (.error (.valueError "no key")) 0 (.bool false)).1 rfl,
   (analyze_rule_empty_selection_C10 ruleC10w repoC10w ⟨fun _ => .ok "zzz"⟩
      (.error (.valueError "no key")) 0 (.bool false)).2 rfl rfl rfl⟩

/-- A rule whose selection-prompt construction crashes: a red pattern entry
that is an int, whose `.get` raises during file selection, outside every
protected region. -/
def ruleC1cex : PyDict :=
  [("code_checks", .dict [("enabled", .bool true), ("file_keywords", .list [.str "a"]),
    ("red_patterns", .list [.int 5])])]

/-- Counterexample to C1 as frozen: on `ruleC1cex` (a rule dictionary) and a
repository with four matching code files, the selection-prompt construction
raises `AttributeError` and the exception escapes `analyze_rule` — no result
dictionary is returned. -/
theorem analyze_rule_C1_cex :
    analyze_rule ruleC1cex repoC10cex (some ⟨fun _ => .ok "zzz"⟩)
        (.error (.valueError "no key")) =
      .error (.attributeError "object has no attribute get") ∧
    ∀ res n, analyze_rule ruleC1cex repoC10cex (some ⟨fun _ => .ok "zzz"⟩)
        (.error (.valueError "no key")) ≠ .ok (res, n) :=
  ⟨rfl, fun _ _ h => Except.noConfusion h⟩

/-- C1 amended: for every rule dictionary whose `code_checks` field (when
present) is well-typed for the selection phase, every repository and every
completion provider whose failures render nonempty, `analyze_rule` returns
a result dictionary and lets no exception escape; failures during file
reading, the analysis-prompt construction, the completion call, or response
parsing are caught and converted into a degraded result carrying
passed=null, score=0, no violations, the files successfully read, and a
non-empty error string. -/
theorem analyze_rule_no_escape_C1 (rule : PyDict) (repo : Repo) (client : FeatherlessClient)
    (mk : Except PyErr FeatherlessClient)
    (hwt : wtRule rule = true)
    (hmsg : ∀ p e, client.generate_completion p = .error e → pyErrMsg e ≠ "") :
    ∃ res n, analyze_rule rule repo (some client) mk = .ok (res, n) ∧
      (res.error = none ∨
        (res.passed = .noneV ∧ res.score = 0 ∧ res.violations = [] ∧
         (∃ sel k, rule_file_selection rule repo client = .ok (sel, k) ∧
           res.files_analyzed = (read_selected repo sel).map Prod.fst) ∧
         ∃ m, res.error = some m ∧ m ≠ "")) := by
  obtain ⟨⟨sel, k⟩, hsel⟩ := rule_file_selection_total rule repo client hwt
  have h0 : analyze_rule rule repo (some client) mk =
    (match rule_file_selection rule repo client with
     | Except.error e => Except.error e
     | Except.ok sel =>
       if sel.1.isEmpty then Except.ok (emptyFilesResult rule, sel.2)
       else
         match call_llm_for_rule rule (read_selected repo sel.1) client with
         | (Except.ok result, m) =>
           Except.ok (llmSuccessResult rule result (read_selected repo sel.1), sel.2 + m)
         | (Except.error e, m) =>
           Except.ok (llmErrorResult rule e (read_selected repo sel.1), sel.2 + m)) := rfl
  rw [h0, hsel]
  cases sel with
  | nil => exact ⟨emptyFilesResult rule, k, rfl, Or.inl rfl⟩
  | cons a t =>
    cases hc : call_llm_for_rule rule (read_selected repo (a :: t)) client with
    | mk exc m =>
      cases exc with
      | ok san =>
        refine ⟨llmSuccessResult rule san (read_selected repo (a :: t)), k + m, ?_, Or.inl rfl⟩
        show (match call_llm_for_rule rule (read_selected repo (a :: t)) client with
          | (Except.ok result, m') =>
            Except.ok (ε := PyErr)
              (llmSuccessResult rule result (read_selected repo (a :: t)), k + m')
          | (Except.error e, m') =>
            Except.ok (llmErrorResult rule e (read_selected repo (a :: t)), k + m')) =
          Except.ok (llmSuccessResult rule san (read_selected repo (a :: t)), k + m)
        rw [hc]
      | error e =>
        refine ⟨llmErrorResult rule e (read_selected repo (a :: t)), k + m, ?_,
          Or.inr ⟨rfl, rfl, rfl, ⟨a :: t, k, rfl, rfl⟩,
            ⟨pyErrMsg e, rfl, call_llm_error_msg hmsg hc⟩⟩⟩
        show (match call_llm_for_rule rule (read_selected repo (a :: t)) client with
          | (Except.ok result, m') =>
            Except.ok (ε := PyErr)
              (llmSuccessResult rule result (read_selected repo (a :: t)), k + m')
          | (Except.error e, m') =>
            Except.ok (llmErrorResult rule e (read_selected repo (a :: t)), k + m')) =
          Except.ok (llmErrorResult rule e (read_selected repo (a :: t)), k + m)
        rw [hc]

/-- A document-type rule whose analysis reply is not JSON, exercising the
degraded path for the C1 witness. -/
def ruleC1w : PyDict := [("id", .str "w1"), ("check_type", .str "document")]

/-- A repository with one documentation file for the C1 witness. -/
def repoC1w : Repo :=
  { code_files := [], doc_files := ["README.md"], read_file := fun _ => .ok "hello" }

/-- Witness for C1 amended at a concrete rule, repository and provider whose
reply fails to parse: the theorem applies and a result is returned. -/
theorem analyze_rule_no_escape_C1_witness :
    wtRule ruleC1w = true ∧
    (∃ res n, analyze_rule ruleC1w repoC1w (some ⟨fun _ => .ok "not json"⟩)
        (.error (.valueError "no key")) = .ok (res, n) ∧
      (res.error = none ∨
        (res.passed = .noneV ∧ res.score = 0 ∧ res.violations = [] ∧
         (∃ sel k, rule_file_selection ruleC1w repoC1w ⟨fun _ => .ok "not json"⟩ =
             .ok (sel, k) ∧
           res.files_analyzed = (read_selected repoC1w sel).map Prod.fst) ∧
         ∃ m, res.error = some m ∧ m ≠ ""))) :=
  ⟨by decide,
    analyze_rule_no_escape_C1 ruleC1w repoC1w ⟨fun _ => .ok "not json"⟩
      (.error (.valueError "no key")) (by decide)
      (fun _ _ h => Except.noConfusion h)⟩

/-- A document-type rule for the C2 theorems. -/
def ruleC2cex : PyDict := [("id", .str "r1"), ("check_type", .str "document")]

/-- A repository with one documentation file for the C2 theorems. -/
def repoC2cex : Repo :=
  { code_files := [], doc_files := ["README.md"], read_file := fun _ => .ok "hello" }

/-- Counterexample to C2 as frozen: a successfully parsed completion that
itself carries `passed: null` produces a result with `passed = null` and no
error field — refuting the claimed equivalence of null passed and error
presence. -/
theorem analyze_rule_C2_cex :
    analyze_rule ruleC2cex repoC2cex
        (some ⟨fun _ => .ok "\x7b\"passed\": null, \"violations\": [], \"score\": 50\x7d"⟩)
        (.error (.valueError "no key")) =
      .ok ({ rule_id := .str "r1", passed := .noneV, violations := [], score := 50,
             files_analyzed := ["README.md"], note := none, error := none }, 1) := rfl

/-- C2 amended: in every result of `analyze_rule`, an error field forces
passed=null (with score 0 and no violations); the empty-file short-circuit
carries passed=true, score 100 and no error field; and a result with
neither error nor note comes from a successfully parsed completion and
carries that completionʼs sanitized passed value — which is null exactly
when the completion itself mapped passed to null. -/
theorem analyze_rule_passed_error_C2 (rule : PyDict) (repo : Repo)
    (client : FeatherlessClient) (mk : Except PyErr FeatherlessClient)
    (res : RuleResult) (n : Nat)
    (h : analyze_rule rule repo (some client) mk = .ok (res, n)) :
    (res.error.isSome → res.passed = .noneV ∧ res.score = 0 ∧ res.violations = []) ∧
    (res.note.isSome → res.passed = .bool true ∧ res.score = 100 ∧ res.error = none) ∧
    (res.error = none → res.note = none →
      ∃ p resp san, client.generate_completion p = .ok resp ∧
        parse_json_response resp = .ok san ∧
        res.passed = san.passed ∧ res.score = san.score ∧ res.violations = san.violations) := by
  obtain ⟨sel, k, hsel, hcases⟩ := analyze_rule_ok_inv h
  rcases hcases with ⟨_, rfl, _⟩ | ⟨hne, hinner⟩
  · refine ⟨?_, ?_, ?_⟩
    · intro hs
      simp [emptyFilesResult] at hs
    · intro _
      exact ⟨rfl, rfl, rfl⟩
    · intro _ hnote
      simp [emptyFilesResult] at hnote
  · rcases hinner with ⟨san, m, hc, rfl, _⟩ | ⟨e, m, hc, rfl, _⟩
    · obtain ⟨p, resp, hbp, hg, hpr, _⟩ := call_llm_ok_inv hc
      refine ⟨?_, ?_, ?_⟩
      · intro hs
        simp [llmSuccessResult] at hs
      · intro hs
        simp [llmSuccessResult] at hs
      · intro _ _
        exact ⟨p, resp, san, hg, hpr, rfl, rfl, rfl⟩
    · refine ⟨?_, ?_, ?_⟩
      · intro _
        exact ⟨rfl, rfl, rfl⟩
      · intro hs
        simp [llmErrorResult] at hs
      · intro he
        simp [llmErrorResult] at he

/-- The provider of the C2 witness, answering with a well-formed JSON
object whose passed value is boolean. -/
def clientC2w : FeatherlessClient :=
  ⟨fun _ => .ok "\x7b\"passed\": true, \"violations\": [], \"score\": 80\x7d"⟩

/-- The analysis result of the C2 witness run. -/
def resC2w : RuleResult :=
  { rule_id := .str "r1", passed := .bool true, violations := [], score := 80,
    files_analyzed := ["README.md"], note := none, error := none }

/-- Witness for C2 amended at a concrete run whose completion parses
successfully with a boolean passed value. -/
theorem analyze_rule_passed_error_C2_witness :
    (resC2w.error.isSome → resC2w.passed = .noneV ∧ resC2w.score = 0 ∧
      resC2w.violations = []) ∧
    (resC2w.note.isSome → resC2w.passed = .bool true ∧ resC2w.score = 100 ∧
      resC2w.error = none) ∧
    (resC2w.error = none → resC2w.note = none →
      ∃ p resp san, clientC2w.generate_completion p = .ok resp ∧
        parse_json_response resp = .ok san ∧
        resC2w.passed = san.passed ∧ resC2w.score = san.score ∧
        resC2w.violations = san.violations) :=
  analyze_rule_passed_error_C2 ruleC2cex repoC2cex clientC2w
    (.error (.valueError "no key")) resC2w 1 rfl
